import Mathlib

/-!
Verification development for the web-snapshot serializer/deserializer
(`src/web-snapshot/web-snapshot.cc`).

The C++ source is shallowly embedded below: pure helpers become Lean
functions, the deserializer's member state becomes an explicit state
record threaded through each `Deserialize*` stage, and the byte stream
is a `List Nat` of bytes with an explicit cursor.  Machine integers are
modelled as `Nat`/`Int`; the stream readers validate bounds exactly
where the C++ does.

The companion header `web-snapshot.h` (bit-field layout, enum tags,
`kMaxItemCount`, the magic number) and the `ValueSerializer` byte codec
are not part of the provided sources; those parts are modelled from the
specification and are marked `Modelled from the spec:` in their doc
comments.
-/

namespace WebSnapshot

/-- Modelled from the spec: the fixed item ceiling each table's declared
count is checked against ("rejected immediately if it exceeds a fixed
item ceiling").  The constant's concrete value is irrelevant to every
property proved below; a small value is used so that counterexample
states stay cheap to evaluate. -/
def kMaxItemCount : Nat := 100

/-- Modelled from the spec: the upper bound on a shape's property count
(`kMaxNumberOfDescriptors` in the source, defined in a header that is
not part of the provided sources). -/
def kMaxNumberOfDescriptors : Nat := 1020

/-- Modelled from the spec: the 4-byte magic number that prefixes every
snapshot (`kMagicNumber` lives in the missing header; only its length
and the fact that encoder and decoder agree on it matter here). -/
def kMagicNumber : List Nat := [43, 43, 43, 59]

/-- A string value: its byte content (strings travel as length-prefixed
byte sequences). -/
abbrev Str := List Nat

/-! ## Function kinds and flags

`FunctionKindToFunctionFlags` / `FunctionFlagsToFunctionKind` translate
between the runtime's function-kind enum and the 8-bit flag word stored
in the snapshot.  The bit-field layout (8 consecutive one-bit fields) is
modelled from the spec: "a flags bitfield over 8 boolean/categorical
traits (async, generator, arrow, method, static, is-constructor,
is-default-constructor, is-derived-constructor)", in that bit order,
bit 0 first. -/

/-- The function kinds mentioned by the translation functions. -/
inductive FunctionKind where
  | kNormalFunction
  | kArrowFunction
  | kGeneratorFunction
  | kAsyncFunction
  | kAsyncArrowFunction
  | kAsyncGeneratorFunction
  | kBaseConstructor
  | kDefaultBaseConstructor
  | kDerivedConstructor
  | kDefaultDerivedConstructor
  | kConciseMethod
  | kAsyncConciseMethod
  | kInvalid
deriving DecidableEq, Repr

/-- Modelled from the spec: `IsAsyncFunction` over the supported kinds
(the predicate lives in `src/objects/function-kind.h`, not part of the
provided sources). -/
def IsAsyncFunction : FunctionKind → Bool
  | .kAsyncFunction | .kAsyncArrowFunction | .kAsyncGeneratorFunction
  | .kAsyncConciseMethod => true
  | _ => false

/-- Modelled from the spec: `IsGeneratorFunction`. -/
def IsGeneratorFunction : FunctionKind → Bool
  | .kGeneratorFunction | .kAsyncGeneratorFunction => true
  | _ => false

/-- Modelled from the spec: `IsArrowFunction`. -/
def IsArrowFunction : FunctionKind → Bool
  | .kArrowFunction | .kAsyncArrowFunction => true
  | _ => false

/-- Modelled from the spec: `IsConciseMethod`. -/
def IsConciseMethod : FunctionKind → Bool
  | .kConciseMethod | .kAsyncConciseMethod => true
  | _ => false

/-- Modelled from the spec: `IsStatic` (no static kind is in the set the
translation functions handle). -/
def IsStatic : FunctionKind → Bool
  | _ => false

/-- Modelled from the spec: `IsClassConstructor`. -/
def IsClassConstructor : FunctionKind → Bool
  | .kBaseConstructor | .kDefaultBaseConstructor
  | .kDerivedConstructor | .kDefaultDerivedConstructor => true
  | _ => false

/-- Modelled from the spec: `IsDefaultConstructor`. -/
def IsDefaultConstructor : FunctionKind → Bool
  | .kDefaultBaseConstructor | .kDefaultDerivedConstructor => true
  | _ => false

/-- Modelled from the spec: `IsDerivedConstructor`. -/
def IsDerivedConstructor : FunctionKind → Bool
  | .kDerivedConstructor | .kDefaultDerivedConstructor => true
  | _ => false

/-- A one-bit bit-field encode: `BitField::encode`. -/
def bitEncode (bit : Nat) (b : Bool) : Nat := if b then 2 ^ bit else 0

/-- `WebSnapshotSerializerDeserializer::FunctionKindToFunctionFlags`.
Returns the flag word together with `true` when the kind was outside the
supported set and `Throw("Unsupported function kind")` was recorded (the
C++ records the error and still computes and returns the flags). -/
def FunctionKindToFunctionFlags (kind : FunctionKind) : Nat × Bool :=
  let errored :=
    match kind with
    | .kNormalFunction | .kArrowFunction | .kGeneratorFunction
    | .kAsyncFunction | .kAsyncArrowFunction | .kAsyncGeneratorFunction
    | .kBaseConstructor | .kDefaultBaseConstructor
    | .kConciseMethod | .kAsyncConciseMethod => false
    | _ => true
  let flags :=
    bitEncode 0 (IsAsyncFunction kind) |||
    bitEncode 1 (IsGeneratorFunction kind) |||
    bitEncode 2 (IsArrowFunction kind) |||
    bitEncode 3 (IsConciseMethod kind) |||
    bitEncode 4 (IsStatic kind) |||
    bitEncode 5 (IsClassConstructor kind) |||
    bitEncode 6 (IsDefaultConstructor kind) |||
    bitEncode 7 (IsDerivedConstructor kind)
  (flags, errored)

/-- `WebSnapshotSerializerDeserializer::IsFunctionOrMethod`: the flag
word only uses the async/generator/arrow/method/static bits (bits 0-4,
mask 31). -/
def IsFunctionOrMethod (flags : Nat) : Bool := flags &&& 31 == flags

/-- `WebSnapshotSerializerDeserializer::IsConstructor`: the
class-constructor bit is set and only the constructor bit group (bits
5-7, mask 224) is used. -/
def IsConstructor (flags : Nat) : Bool :=
  flags.testBit 5 && (flags &&& 224 == flags)

/-- The 16-entry `kFunctionKinds` lookup table of
`FunctionFlagsToFunctionKind` (function/method family), indexed by
async | generator&lt;&lt;1 | (arrow or static)&lt;&lt;2 | method&lt;&lt;3. -/
def kFunctionKindsFunctionOrMethod (index : Nat) : FunctionKind :=
  match index with
  | 0 => .kNormalFunction
  | 1 => .kAsyncFunction
  | 2 => .kGeneratorFunction
  | 3 => .kAsyncGeneratorFunction
  | 4 => .kArrowFunction
  | 5 => .kAsyncArrowFunction
  | 6 => .kInvalid
  | 7 => .kInvalid
  | 8 => .kConciseMethod
  | 9 => .kAsyncConciseMethod
  | 10 => .kInvalid
  | 11 => .kInvalid
  | 12 => .kInvalid
  | 13 => .kInvalid
  | 14 => .kInvalid
  | 15 => .kInvalid
  | _ => .kInvalid

/-- The 4-entry `kFunctionKinds` lookup table of
`FunctionFlagsToFunctionKind` (constructor family), indexed by
`flags >> DefaultConstructorBitField::kShift` (shift 6). -/
def kFunctionKindsConstructor (index : Nat) : FunctionKind :=
  match index with
  | 0 => .kBaseConstructor
  | 1 => .kDefaultBaseConstructor
  | 2 => .kDerivedConstructor
  | 3 => .kDefaultDerivedConstructor
  | _ => .kInvalid

/-- `WebSnapshotSerializerDeserializer::FunctionFlagsToFunctionKind`.
Returns the kind and `true` when `Throw("Invalid function flags\n")`
was recorded (i.e. the computed kind was `kInvalid`). -/
def FunctionFlagsToFunctionKind (flags : Nat) : FunctionKind × Bool :=
  let kind :=
    if IsFunctionOrMethod flags then
      if flags.testBit 2 && flags.testBit 3 then
        FunctionKind.kInvalid
      else
        let index :=
          (if flags.testBit 0 then 1 else 0) |||
          ((if flags.testBit 1 then 1 else 0) <<< 1) |||
          ((if flags.testBit 2 || flags.testBit 4 then 1 else 0) <<< 2) |||
          ((if flags.testBit 3 then 1 else 0) <<< 3)
        kFunctionKindsFunctionOrMethod index
    else if IsConstructor flags then
      kFunctionKindsConstructor (flags >>> 6)
    else
      FunctionKind.kInvalid
  (kind, kind == FunctionKind.kInvalid)

/-- The ten function kinds the serializer supports (the non-`default:`
cases of `FunctionKindToFunctionFlags`'s switch). -/
def supportedFunctionKinds : List FunctionKind :=
  [.kNormalFunction, .kArrowFunction, .kGeneratorFunction,
   .kAsyncFunction, .kAsyncArrowFunction, .kAsyncGeneratorFunction,
   .kBaseConstructor, .kDefaultBaseConstructor,
   .kConciseMethod, .kAsyncConciseMethod]

/-- The flag words `FunctionFlagsToFunctionKind` accepts without
recording an error. -/
def acceptedFunctionFlagWords : List Nat :=
  [0, 1, 2, 3, 4, 5, 8, 9, 16, 17, 20, 21, 32, 96, 160, 224]

/-- A flag word of 256 or more uses a bit outside both bit groups, so
both `IsFunctionOrMethod` and `IsConstructor` reject it and decoding
records an error. -/
theorem auxFunctionFlagsLarge (flags : Nat) (h : 256 ≤ flags) :
    (FunctionFlagsToFunctionKind flags).2 = true := by
  have h1 : IsFunctionOrMethod flags = false := by
    simp only [IsFunctionOrMethod, beq_eq_false_iff_ne, ne_eq]
    intro heq
    have hle : flags &&& 31 ≤ 31 := Nat.and_le_right
    omega
  have h2 : IsConstructor flags = false := by
    simp only [IsConstructor, Bool.and_eq_false_iff]
    right
    simp only [beq_eq_false_iff_ne, ne_eq]
    intro heq
    have hle : flags &&& 224 ≤ 224 := Nat.and_le_right
    omega
  simp [FunctionFlagsToFunctionKind, h1, h2]

set_option maxRecDepth 4000 in
/-- Below 256 the accepted flag words are exactly
`acceptedFunctionFlagWords` (checked by evaluation). -/
theorem auxFunctionFlagsSmall :
    ∀ flags < 256, ((FunctionFlagsToFunctionKind flags).2 = false ↔
      flags ∈ acceptedFunctionFlagWords) := by decide

/-- C6 counterexample: the flag word 16 (only the `static` bit set) is
not the encoding of any supported function kind — the encodings are
0, 4, 2, 1, 5, 3, 32, 96, 8 and 9 — yet `FunctionFlagsToFunctionKind`
decodes it to `kArrowFunction` without recording an error, because the
decoder's index computation merges the arrow and static bits.  This
refutes "for every 32-bit flag word that is not the encoding of a
supported kind, decoding records a failure". -/
theorem c6_flags_not_injective_counterexample :
    FunctionFlagsToFunctionKind 16 = (FunctionKind.kArrowFunction, false) ∧
    16 ∉ supportedFunctionKinds.map (fun k => (FunctionKindToFunctionFlags k).1) := by
  decide

/-- C6 (amended): for each of the ten supported function kinds,
`FunctionKindToFunctionFlags` records no error and
`FunctionFlagsToFunctionKind` inverts it exactly; and
`FunctionFlagsToFunctionKind` records no error precisely on the sixteen
flag words of `acceptedFunctionFlagWords` — the ten canonical encodings
plus 16, 17, 20, 21 (arrow-family words in which the static bit stands
in for the arrow bit) and 160, 224 (derived-constructor words decoding
to kinds outside the supported set). -/
theorem c6_function_flags_roundtrip :
    (∀ k ∈ supportedFunctionKinds,
      (FunctionKindToFunctionFlags k).2 = false ∧
      FunctionFlagsToFunctionKind (FunctionKindToFunctionFlags k).1 = (k, false)) ∧
    (∀ flags : Nat, ((FunctionFlagsToFunctionKind flags).2 = false ↔
      flags ∈ acceptedFunctionFlagWords)) := by
  refine ⟨by decide, fun flags => ?_⟩
  by_cases h : flags < 256
  · exact auxFunctionFlagsSmall flags h
  · have hbig := auxFunctionFlagsLarge flags (by omega)
    constructor
    · intro hf
      rw [hbig] at hf
      cases hf
    · intro hmem
      exfalso
      simp only [acceptedFunctionFlagWords, List.mem_cons,
        List.not_mem_nil, or_false] at hmem
      rcases hmem with h|h|h|h|h|h|h|h|h|h|h|h|h|h|h|h <;> omega

/-- Witness for `c6_function_flags_roundtrip`: instantiated at
`kAsyncGeneratorFunction`, whose encoding round-trips cleanly. -/
theorem c6_function_flags_roundtrip_witness :
    FunctionFlagsToFunctionKind
      (FunctionKindToFunctionFlags FunctionKind.kAsyncGeneratorFunction).1 =
      (FunctionKind.kAsyncGeneratorFunction, false) :=
  (c6_function_flags_roundtrip.1 FunctionKind.kAsyncGeneratorFunction (by decide)).2

/-! ## Source compaction (`WebSnapshotSerializer::SerializeSource`)

`source_offset_to_compacted_source_offset_` is a `std::map` whose
`operator[]` default-constructs a missing entry to 0; it is modelled as
an association list with a defaulting lookup. -/

/-- Read `source_offset_to_compacted_source_offset_[k]` (0 when the key
is absent, as `std::map::operator[]` default-constructs). -/
def offsetMapGet (m : List (Nat × Nat)) (k : Nat) : Nat :=
  match m.find? (fun p => p.1 == k) with
  | some p => p.2
  | none => 0

/-- Write `source_offset_to_compacted_source_offset_[k] = v`. -/
def offsetMapSet (m : List (Nat × Nat)) (k v : Nat) : List (Nat × Nat) :=
  match m.find? (fun p => p.1 == k) with
  | some _ => m.map (fun p => if p.1 == k then (k, v) else p)
  | none => m ++ [(k, v)]

/-- The interval loop of `WebSnapshotSerializer::SerializeSource`:
iterate the recorded `(first, second)` intervals in ascending order over
`full_source_`, maintaining the current covering interval, the growing
compacted string and the offset map.  An interval fully inside the
current coverage only records an offset mapping; otherwise the code
starts a new covering interval at `first` and appends the substring
`full_source_[first, second)` to the compacted string. -/
def SerializeSourceLoop (fullSource : Str) :
    List (Nat × Nat) → Nat → Nat → Str → List (Nat × Nat) →
    Str × List (Nat × Nat)
  | [], _, _, sourceString, m => (sourceString, m)
  | (first, second) :: rest, curStart, curEnd, sourceString, m =>
    if second ≤ curEnd then
      let offsetWithinParent := first - curStart
      let m2 := offsetMapSet m first (offsetMapGet m curStart + offsetWithinParent)
      SerializeSourceLoop fullSource rest curStart curEnd sourceString m2
    else
      let m2 := offsetMapSet m first sourceString.length
      let sourceString2 := sourceString ++ ((fullSource.drop first).take (second - first))
      SerializeSourceLoop fullSource rest first second sourceString2 m2

/-- `WebSnapshotSerializer::SerializeSource`, producing the compacted
source string and the offset translation map (the final
`SerializeString` of the compacted string belongs to the serializer
model). -/
def SerializeSource (fullSource : Str) (intervals : List (Nat × Nat)) :
    Str × List (Nat × Nat) :=
  SerializeSourceLoop fullSource intervals 0 0 [] []

/-- The spec's version of the interval loop, transcribed from its words:
a contained interval records only the mapping
`mapped(start) = mapped(currentStart) + (start − currentStart)`; an
extending interval appends exactly its non-overlapping suffix (only the
portion past the end of the current coverage) and becomes the new
covering interval. -/
def SpecSerializeSourceLoop (fullSource : Str) :
    List (Nat × Nat) → Nat → Nat → Str → List (Nat × Nat) →
    Str × List (Nat × Nat)
  | [], _, _, sourceString, m => (sourceString, m)
  | (first, second) :: rest, curStart, curEnd, sourceString, m =>
    if second ≤ curEnd then
      let m2 := offsetMapSet m first (offsetMapGet m curStart + (first - curStart))
      SpecSerializeSourceLoop fullSource rest curStart curEnd sourceString m2
    else
      let suffixStart := max first curEnd
      let m2 := offsetMapSet m first sourceString.length
      let sourceString2 :=
        sourceString ++ ((fullSource.drop suffixStart).take (second - suffixStart))
      SpecSerializeSourceLoop fullSource rest first second sourceString2 m2

/-- The spec's version of `SerializeSource`. -/
def SpecSerializeSource (fullSource : Str) (intervals : List (Nat × Nat)) :
    Str × List (Nat × Nat) :=
  SpecSerializeSourceLoop fullSource intervals 0 0 [] []

/-- No interval partially overlaps the running coverage: each interval
either lies inside the current coverage or starts at/after its end
(this is how nested function spans behave). -/
def wellNested (curEnd : Nat) : List (Nat × Nat) → Bool
  | [] => true
  | (first, second) :: rest =>
    if second ≤ curEnd then wellNested curEnd rest
    else decide (curEnd ≤ first) && wellNested second rest

/-- C9 counterexample: on the partially overlapping intervals
`(0, 2), (1, 3)` over the source "abc", `SerializeSource` appends the
whole second interval, duplicating the overlap and producing "abbc",
while the claim's suffix-only algorithm produces "abc".  This refutes
"appends exactly its non-overlapping suffix (only the portion past the
end of the current coverage)". -/
theorem c9_partial_overlap_counterexample :
    (SerializeSource [97, 98, 99] [(0, 2), (1, 3)]).1 = [97, 98, 98, 99] ∧
    (SpecSerializeSource [97, 98, 99] [(0, 2), (1, 3)]).1 = [97, 98, 99] ∧
    (SerializeSource [97, 98, 99] [(0, 2), (1, 3)]).1 ≠
      (SpecSerializeSource [97, 98, 99] [(0, 2), (1, 3)]).1 := by
  decide

theorem auxSerializeSourceWellNested (fullSource : Str) :
    ∀ (l : List (Nat × Nat)) (curStart curEnd : Nat) (acc : Str)
      (m : List (Nat × Nat)), wellNested curEnd l = true →
      SerializeSourceLoop fullSource l curStart curEnd acc m =
      SpecSerializeSourceLoop fullSource l curStart curEnd acc m := by
  intro l
  induction l with
  | nil => intro _ _ _ _ _; rfl
  | cons hd tl ih =>
    intro curStart curEnd acc m hw
    obtain ⟨first, second⟩ := hd
    by_cases hc : second ≤ curEnd
    · simp only [wellNested, if_pos hc] at hw
      simp only [SerializeSourceLoop, SpecSerializeSourceLoop, if_pos hc]
      exact ih curStart curEnd acc _ hw
    · simp only [wellNested, if_neg hc, Bool.and_eq_true, decide_eq_true_eq] at hw
      have hmax : max first curEnd = first := Nat.max_eq_left hw.1
      simp only [SerializeSourceLoop, SpecSerializeSourceLoop, if_neg hc, hmax]
      exact ih first second _ _ hw.2

/-- C9 (amended): an interval fully contained in the current coverage
contributes no new text and only records the position mapping
`mapped(start) = mapped(currentStart) + (start − currentStart)`; an
interval extending past the current coverage appends the entire
substring `full_source_[start, end)` — not just the portion past the
current coverage — and becomes the new covering interval.  Whenever no
interval partially overlaps the running coverage (`wellNested`, the
shape produced by nested function spans) the appended text coincides
with the non-overlapping suffix, so the code agrees with the spec's
suffix-only algorithm. -/
theorem c9_source_compaction (fullSource : Str) (intervals : List (Nat × Nat))
    (h : wellNested 0 intervals = true) :
    SerializeSource fullSource intervals = SpecSerializeSource fullSource intervals :=
  auxSerializeSourceWellNested fullSource intervals 0 0 [] [] h

/-- Witness for `c9_source_compaction`: a nested pair of intervals. -/
theorem c9_source_compaction_witness :
    SerializeSource [97, 98, 99, 100] [(0, 3), (1, 2)] =
      SpecSerializeSource [97, 98, 99, 100] [(0, 3), (1, 2)] :=
  c9_source_compaction [97, 98, 99, 100] [(0, 3), (1, 2)] (by decide)

/-! ## Context discovery (`WebSnapshotSerializer::DiscoverContext`)

Context identity is what `context_ids_` keys on; a context is modelled
by its local names and its parent chain.  `previous` is `none` when the
C++ parent is the native or script context (where the chain stops). -/

/-- A function or block context reachable during discovery. -/
inductive Ctx where
  | root (locals : List Nat)
  | child (locals : List Nat) (parent : Ctx)
deriving DecidableEq, Repr

/-- `context->previous()`, as an option (none = native/script). -/
def Ctx.previous : Ctx → Option Ctx
  | .root _ => none
  | .child _ p => some p

/-- `WebSnapshotSerializer::DiscoverContext` acting on `contexts_` (the
discovered contexts in ID order; `context_ids_` maps a context to its
position in this list).  The entire parent chain is discovered before
the context itself is interned; interning appends exactly when the
context is not yet present. -/
def DiscoverContext (st : List Ctx) : Ctx → List Ctx
  | .root locals =>
    if Ctx.root locals ∈ st then st else st ++ [Ctx.root locals]
  | .child locals p =>
    let st1 := DiscoverContext st p
    if Ctx.child locals p ∈ st1 then st1 else st1 ++ [Ctx.child locals p]

/-- `WebSnapshotSerializer::GetContextId`: position in `contexts_`. -/
def GetContextId (st : List Ctx) (c : Ctx) : Nat := st.indexOf c

/-- The parent field `SerializeContext` writes for `c` (0 = no parent,
otherwise 1 + parent context id). -/
def SerializedParentId (st : List Ctx) (c : Ctx) : Nat :=
  match c.previous with
  | none => 0
  | some p => GetContextId st p + 1

/-- Every context's parent occurs at a strictly smaller index. -/
def ParentOrdered (st : List Ctx) : Prop :=
  ∀ (j : Nat) (hj : j < st.length) (p : Ctx),
    (st.get ⟨j, hj⟩).previous = some p →
    ∃ (i : Nat) (hi : i < st.length), i < j ∧ st.get ⟨i, hi⟩ = p

theorem auxDiscoverContextPrefix (c : Ctx) :
    ∀ st : List Ctx, ∃ t, DiscoverContext st c = st ++ t := by
  induction c with
  | root locals =>
    intro st
    by_cases h : Ctx.root locals ∈ st
    · exact ⟨[], by simp [DiscoverContext, h]⟩
    · exact ⟨[Ctx.root locals], by simp [DiscoverContext, h]⟩
  | child locals p ih =>
    intro st
    obtain ⟨t1, h1⟩ := ih st
    simp only [DiscoverContext]
    rw [h1]
    by_cases h : Ctx.child locals p ∈ st ++ t1
    · exact ⟨t1, by simp [h]⟩
    · exact ⟨t1 ++ [Ctx.child locals p], by simp [h]⟩

theorem auxDiscoverContextMem (c : Ctx) :
    ∀ st : List Ctx, c ∈ DiscoverContext st c := by
  induction c with
  | root locals =>
    intro st
    by_cases h : Ctx.root locals ∈ st <;> simp [DiscoverContext, h]
  | child locals p ih =>
    intro st
    by_cases h : Ctx.child locals p ∈ DiscoverContext st p <;>
      simp [DiscoverContext, h]

theorem auxParentOrderedAppend (st : List Ctx) (x : Ctx)
    (hord : ParentOrdered st)
    (hx : ∀ p, x.previous = some p → p ∈ st) :
    ParentOrdered (st ++ [x]) := by
  intro j hj p hp
  rcases Nat.lt_or_ge j st.length with hlt | hge
  · have hget : (st ++ [x]).get ⟨j, hj⟩ = st.get ⟨j, hlt⟩ :=
      List.get_append_left st [x] hlt
    rw [hget] at hp
    obtain ⟨i, hi, hij, hpi⟩ := hord j hlt p hp
    exact ⟨i, by simp; omega, hij,
      by rw [List.get_append_left st [x] hi] at *; exact hpi⟩
  · have hlen : (st ++ [x]).length = st.length + 1 := by simp
    have hjeq : j = st.length := by omega
    have hget : (st ++ [x]).get ⟨j, hj⟩ = x := by
      subst hjeq
      simp [List.get_append_right]
    rw [hget] at hp
    have hmem := hx p hp
    obtain ⟨⟨i, hi⟩, hpi⟩ := List.mem_iff_get.mp hmem
    refine ⟨i, by simp; omega, by omega, ?_⟩
    rw [List.get_append_left st [x] hi]
    exact hpi

theorem auxDiscoverContextOrdered (c : Ctx) :
    ∀ st : List Ctx, ParentOrdered st → ParentOrdered (DiscoverContext st c) := by
  induction c with
  | root locals =>
    intro st hord
    by_cases h : Ctx.root locals ∈ st
    · simpa [DiscoverContext, h] using hord
    · simp only [DiscoverContext, if_neg h]
      exact auxParentOrderedAppend st _ hord (by intro p hp; cases hp)
  | child locals p ih =>
    intro st hord
    have hord1 := ih st hord
    by_cases h : Ctx.child locals p ∈ DiscoverContext st p
    · simpa [DiscoverContext, h] using hord1
    · simp only [DiscoverContext, if_neg h]
      refine auxParentOrderedAppend _ _ hord1 ?_
      intro q hq
      have hqp : p = q := by
        simpa [Ctx.previous] using hq
      subst hqp
      exact auxDiscoverContextMem p st

theorem auxIndexOfLe (p : Ctx) :
    ∀ (l : List Ctx) (i : Nat) (hi : i < l.length),
      l.get ⟨i, hi⟩ = p → l.indexOf p ≤ i := by
  intro l
  induction l with
  | nil => intro i hi; simp at hi
  | cons hd tl ih =>
    intro i hi hget
    cases i with
    | zero =>
      simp only [List.get] at hget
      simp [List.indexOf_cons, hget]
    | succ n =>
      simp only [List.get] at hget
      by_cases hhd : hd = p
      · simp [List.indexOf_cons, hhd]
      · have := ih n (by simpa using hi) hget
        simp only [List.indexOf_cons]
        have hne : (hd == p) = false := by simpa using hhd
        rw [hne]
        simpa using Nat.succ_le_succ this

theorem auxFoldDiscoverOrdered (cs : List Ctx) :
    ParentOrdered (cs.foldl DiscoverContext []) := by
  suffices h : ∀ st, ParentOrdered st → ParentOrdered (cs.foldl DiscoverContext st) by
    refine h [] ?_
    intro j hj
    simp at hj
  induction cs with
  | nil => intro st h; exact h
  | cons c rest ih =>
    intro st h
    exact ih (DiscoverContext st c) (auxDiscoverContextOrdered c st h)

/-! ## Deserializer: values and state

`WebSnapshotDeserializer` keeps its tables in `FixedArray`s
(`strings_`, `maps_`, `contexts_`, `functions_`, `classes_`, `arrays_`,
`objects_`), its table counts and `current_*_count_` cursors as
members, and a list of deferred references.  The state record below
carries all of them plus the input byte stream and cursor.  Table slots
are `Option`s: a fresh `FixedArray` is filled with `undefined`,
modelled as `none`.  Resolved references to table entries are
represented by the entry's table index (the C++ stores the pointer to
the materialized entity at that index).

Two instrumentation fields exist only to state theorems: `oob` records
whether any table array was ever indexed out of bounds, and `events`
records the observable actions of `DeserializeExports` on the global
namespace. -/

/-- The `ValueType` enum of the snapshot format. -/
inductive ValueType where
  | UNDEFINED_CONSTANT | NULL_CONSTANT | TRUE_CONSTANT | FALSE_CONSTANT
  | INTEGER | DOUBLE | STRING_ID | ARRAY_ID | OBJECT_ID | FUNCTION_ID
  | CLASS_ID | REGEXP
deriving DecidableEq, Repr

/-- Modelled from the spec: the numeric tag of each `ValueType`, in the
spec's §6 listing order (the enum's numbering lives in the missing
header; only agreement between writer and reader matters). -/
def ValueType.tag : ValueType → Nat
  | .UNDEFINED_CONSTANT => 0
  | .NULL_CONSTANT => 1
  | .TRUE_CONSTANT => 2
  | .FALSE_CONSTANT => 3
  | .INTEGER => 4
  | .DOUBLE => 5
  | .STRING_ID => 6
  | .ARRAY_ID => 7
  | .OBJECT_ID => 8
  | .FUNCTION_ID => 9
  | .CLASS_ID => 10
  | .REGEXP => 11

/-- A decoded value as stored into a slot. -/
inductive Val where
  | falseC | trueC | nullC | undef
  | int (n : Int)
  | double (bytes : List Nat)
  | str (s : Str)
  | arrRef (i : Nat)
  | objRef (i : Nat)
  | funcRef (i : Nat)
  | classRef (i : Nat)
  | regexp (pattern flagsString : Str)
deriving DecidableEq, Repr

/-- A decoded shape (a `Map` in the source): property names and
attributes in record order, and the prototype slot.  `protoDefault`
marks `Object.prototype`; otherwise `proto` is `Val.objRef` once
resolved (`Val.undef` while a deferred reference is pending).
`claimed` models `constructor_or_back_pointer` being non-null (set by
`SetFunctionPrototype`); the canonical empty map is the initial map of
the Object constructor, whose back pointer is already set. -/
structure ShapeV where
  isCanonicalEmpty : Bool
  keys : List Str
  attributes : List Nat
  protoDefault : Bool
  proto : Val
  claimed : Bool
deriving DecidableEq, Repr

/-- A decoded context: parent table index (none = the isolate's
context), variable names, and the context's slot array (header slots
followed by one slot per variable, as in the C++ `Context`). -/
structure CtxV where
  parent : Option Nat
  varNames : List Str
  slots : List Val
deriving DecidableEq, Repr

/-- Modelled from the spec: `ScopeInfo::ContextHeaderLength()` for the
reconstructed scopes (the exact header size is irrelevant; encoder and
decoder of deferred slot indices agree on it). -/
def contextHeaderLength : Nat := 2

/-- A decoded function or class. -/
structure FuncV where
  contextId : Option Nat
  sourceStr : Str
  startPosition : Nat
  len : Nat
  parameterCount : Nat
  flags : Nat
  kind : FunctionKind
  prototype : Val
deriving DecidableEq, Repr

/-- A decoded array. -/
structure ArrV where
  elements : List Val
deriving DecidableEq, Repr

/-- A decoded object: its shape id and one value per shape property. -/
structure ObjV where
  mapId : Nat
  properties : List Val
deriving DecidableEq, Repr

/-- The container of a deferred reference, identified by the table the
containing entity occupies and its index there (the C++ stores a direct
handle to the entity; entities are stored into their table slot in the
same loop iteration that registers the deferred reference, so the table
index identifies the same entity). -/
inductive ContainerRef where
  | nullRef
  | mapC (i : Nat)
  | contextC (i : Nat)
  | functionC (i : Nat)
  | classC (i : Nat)
  | arrayC (i : Nat)
  | objectC (i : Nat)
deriving DecidableEq, Repr

/-- One `(container, index, target type, target index)` tuple of
`deferred_references_`. -/
structure Deferred where
  container : ContainerRef
  index : Nat
  targetType : ValueType
  targetIndex : Nat
deriving DecidableEq, Repr

/-- Observable actions of `DeserializeExports` on the global namespace
(instrumentation for stating ordering properties). -/
inductive Ev where
  | reserveCapacity (n : Nat)
  | decodedExport (name : Str) (v : Val)
  | addedBinding (name : Str)
  | installedDictionary
deriving DecidableEq, Repr

/-- The deserializer's state. -/
structure DS where
  data : List Nat
  pos : Nat
  errorMessage : Option String
  deserialized : Bool
  stringCount : Nat
  mapCount : Nat
  contextCount : Nat
  functionCount : Nat
  classCount : Nat
  arrayCount : Nat
  objectCount : Nat
  currentFunctionCount : Nat
  currentClassCount : Nat
  currentArrayCount : Nat
  currentObjectCount : Nat
  strings : List Str
  maps : List (Option ShapeV)
  contexts : List (Option CtxV)
  functions : List (Option FuncV)
  classes : List (Option FuncV)
  arrays : List (Option ArrV)
  objects : List (Option ObjV)
  deferredReferences : List Deferred
  global : List (Str × Val)
  events : List Ev
  oob : Bool
  confusion : Bool
deriving Repr

/-- The deserializer's state right after construction, for input `data`
and a global object whose dictionary holds `g0`. -/
def DS.init (g0 : List (Str × Val)) (data : List Nat) : DS :=
  { data := data, pos := 0, errorMessage := none, deserialized := false,
    stringCount := 0, mapCount := 0, contextCount := 0, functionCount := 0,
    classCount := 0, arrayCount := 0, objectCount := 0,
    currentFunctionCount := 0, currentClassCount := 0,
    currentArrayCount := 0, currentObjectCount := 0,
    strings := [], maps := [], contexts := [], functions := [],
    classes := [], arrays := [], objects := [], deferredReferences := [],
    global := g0, events := [], oob := false, confusion := false }

/-- `has_error()`. -/
def DS.hasError (s : DS) : Bool := s.errorMessage.isSome

/-- `WebSnapshotDeserializer::Throw`: zero the string, shape, context,
class, function and object counts (note: not the array count), clear
the deferred references, move the cursor to the end of the buffer, then
record the message via the base `Throw` (first error sticky). -/
def DS.throw (s : DS) (message : String) : DS :=
  if s.errorMessage.isSome then
    { s with stringCount := 0, mapCount := 0, contextCount := 0,
             classCount := 0, functionCount := 0, objectCount := 0,
             deferredReferences := [], pos := s.data.length }
  else
    { s with stringCount := 0, mapCount := 0, contextCount := 0,
             classCount := 0, functionCount := 0, objectCount := 0,
             deferredReferences := [], pos := s.data.length,
             errorMessage := some message }

/-! ### Byte codec

Modelled from the spec: the `ValueSerializer` read/write primitives
(`src/objects/value-serializer.cc` is not part of the provided
sources).  Per §6: little-endian, plain integers are 32-bit, zigzag
integers are signed variable-length, strings are length-prefixed UTF8
byte runs, doubles are 8 raw IEEE754 bytes (kept as raw bytes here). -/

/-- Read one byte (masked to 8 bits); fails at end of input. -/
def readByte (s : DS) : Option (Nat × DS) :=
  if s.pos < s.data.length then
    some (s.data.getD s.pos 0 % 256, { s with pos := s.pos + 1 })
  else none

/-- `ReadUint32`: four little-endian bytes. -/
def readUint32 (s : DS) : Option (Nat × DS) :=
  if s.pos + 4 ≤ s.data.length then
    let b0 := s.data.getD s.pos 0 % 256
    let b1 := s.data.getD (s.pos + 1) 0 % 256
    let b2 := s.data.getD (s.pos + 2) 0 % 256
    let b3 := s.data.getD (s.pos + 3) 0 % 256
    some (b0 + 256 * b1 + 65536 * b2 + 16777216 * b3, { s with pos := s.pos + 4 })
  else none

/-- `ReadRawBytes`: `n` raw bytes (masked to 8 bits). -/
def readRawBytes (s : DS) (n : Nat) : Option (List Nat × DS) :=
  if s.pos + n ≤ s.data.length then
    some (((s.data.drop s.pos).take n).map (fun b => b % 256),
      { s with pos := s.pos + n })
  else none

/-- Variable-length base-128 integer, at most five bytes for 32 bits. -/
def readVarintAux : Nat → Nat → Nat → DS → Option (Nat × DS)
  | 0, _, _, _ => none
  | fuel + 1, shift, acc, s =>
    match readByte s with
    | none => none
    | some (b, s1) =>
      let acc2 := acc + (b % 128) <<< shift
      if b < 128 then some (acc2, s1)
      else readVarintAux fuel (shift + 7) acc2 s1

/-- `ReadZigZag<int32_t>`: a varint holding the zigzag encoding. -/
def readZigZag (s : DS) : Option (Int × DS) :=
  match readVarintAux 5 0 0 s with
  | none => none
  | some (z, s1) =>
    let z32 := z % 4294967296
    some (if z32 % 2 == 0 then (Int.ofNat (z32 / 2), s1)
          else (-(Int.ofNat ((z32 + 1) / 2)), s1))

/-- `ReadDouble`: 8 raw bytes, kept uninterpreted. -/
def readDouble (s : DS) : Option (List Nat × DS) := readRawBytes s 8

/-- `ReadUtf8String`: a `ReadUint32` length prefix followed by that many
raw bytes. -/
def readUtf8String (s : DS) : Option (Str × DS) :=
  match readUint32 s with
  | none => none
  | some (length, s1) => readRawBytes s1 length

/-! ### Bounds-instrumented table accessors

Every `FixedArray` `get`/`set` performed by the deserializer goes
through one of these; an index at or past the table's length raises the
`oob` flag (the C++ would access out of bounds there). -/

/-- `strings_.get(i)`. -/
def DS.getString (s : DS) (i : Nat) : Str × DS :=
  (s.strings.getD i [], if i < s.strings.length then s else { s with oob := true })

/-- `strings_.set(i, v)`. -/
def DS.setString (s : DS) (i : Nat) (v : Str) : DS :=
  { s with strings := s.strings.set i v,
           oob := if i < s.strings.length then s.oob else true }

/-- `maps_.get(i)`. -/
def DS.getMap (s : DS) (i : Nat) : Option ShapeV × DS :=
  (s.maps.getD i none, if i < s.maps.length then s else { s with oob := true })

/-- `maps_.set(i, v)`. -/
def DS.setMap (s : DS) (i : Nat) (v : ShapeV) : DS :=
  { s with maps := s.maps.set i (some v),
           oob := if i < s.maps.length then s.oob else true }

/-- `contexts_.get(i)`. -/
def DS.getContext (s : DS) (i : Nat) : Option CtxV × DS :=
  (s.contexts.getD i none, if i < s.contexts.length then s else { s with oob := true })

/-- `contexts_.set(i, v)`. -/
def DS.setContext (s : DS) (i : Nat) (v : CtxV) : DS :=
  { s with contexts := s.contexts.set i (some v),
           oob := if i < s.contexts.length then s.oob else true }

/-- `functions_.get(i)`. -/
def DS.getFunction (s : DS) (i : Nat) : Option FuncV × DS :=
  (s.functions.getD i none, if i < s.functions.length then s else { s with oob := true })

/-- `functions_.set(i, v)`. -/
def DS.setFunction (s : DS) (i : Nat) (v : FuncV) : DS :=
  { s with functions := s.functions.set i (some v),
           oob := if i < s.functions.length then s.oob else true }

/-- `classes_.get(i)`. -/
def DS.getClass (s : DS) (i : Nat) : Option FuncV × DS :=
  (s.classes.getD i none, if i < s.classes.length then s else { s with oob := true })

/-- `classes_.set(i, v)`. -/
def DS.setClass (s : DS) (i : Nat) (v : FuncV) : DS :=
  { s with classes := s.classes.set i (some v),
           oob := if i < s.classes.length then s.oob else true }

/-- `arrays_.get(i)`. -/
def DS.getArray (s : DS) (i : Nat) : Option ArrV × DS :=
  (s.arrays.getD i none, if i < s.arrays.length then s else { s with oob := true })

/-- `arrays_.set(i, v)`. -/
def DS.setArray (s : DS) (i : Nat) (v : ArrV) : DS :=
  { s with arrays := s.arrays.set i (some v),
           oob := if i < s.arrays.length then s.oob else true }

/-- `objects_.get(i)`. -/
def DS.getObject (s : DS) (i : Nat) : Option ObjV × DS :=
  (s.objects.getD i none, if i < s.objects.length then s else { s with oob := true })

/-- `objects_.set(i, v)`. -/
def DS.setObject (s : DS) (i : Nat) (v : ObjV) : DS :=
  { s with objects := s.objects.set i (some v),
           oob := if i < s.objects.length then s.oob else true }

/-! ### Table deserializers -/

/-- `WebSnapshotDeserializer::ReadString`: read a string id, validate it
against `string_count_`, and fetch the string (internalization does not
change the string's bytes and is omitted). -/
def DS.readString (s : DS) (_internalize : Bool) : Str × DS :=
  match readUint32 s with
  | none => ([], s.throw "malformed string id\n")
  | some (stringId, s1) =>
    if stringId ≥ s1.stringCount then ([], s1.throw "malformed string id\n")
    else s1.getString stringId

/-- `WebSnapshotDeserializer::DeserializeStrings`'s per-string loop.
The loop bound re-reads `string_count_` every iteration (a `Throw`
inside the loop zeroes it); the fuel argument only bounds recursion. -/
def deserializeStringsLoop : Nat → Nat → DS → DS
  | 0, _, s => s
  | fuel + 1, i, s =>
    if i < s.stringCount then
      match readUtf8String s with
      | none => s.throw "Malformed string"
      | some (string, s1) => deserializeStringsLoop fuel (i + 1) (s1.setString i string)
    else s

/-- `WebSnapshotDeserializer::DeserializeStrings`. -/
def deserializeStrings (s : DS) : DS :=
  match readUint32 s with
  | none => s.throw "Malformed string table"
  | some (count, s1) =>
    let s2 := { s1 with stringCount := count }
    if count > kMaxItemCount then s2.throw "Malformed string table"
    else
      let s3 := { s2 with strings := List.replicate count [] }
      deserializeStringsLoop count 0 s3

/-- `WebSnapshotDeserializer::AddDeferredReference`.  A null container
(the export path) records a reference error; otherwise the tuple is
appended to `deferred_references_`.  Returns the `undefined`
placeholder the C++ returns. -/
def DS.addDeferredReference (s : DS) (container : ContainerRef) (index : Nat)
    (targetType : ValueType) (targetIndex : Nat) : Val × DS :=
  match container with
  | .nullRef =>
    let message :=
      match targetType with
      | .ARRAY_ID => "Invalid array reference"
      | .OBJECT_ID => "Invalid object reference"
      | .CLASS_ID => "Invalid class reference"
      | .FUNCTION_ID => "Invalid function reference"
      | _ => "Invalid reference"
    (.undef, s.throw message)
  | c =>
    (.undef, { s with deferredReferences :=
      s.deferredReferences ++ [⟨c, index, targetType, targetIndex⟩] })

/-- `WebSnapshotDeserializer::ReadValue`: read a value-type tag and its
payload.  Reference ids resolve immediately when below the owning
table's `current_*_count_`, and otherwise become deferred references.
`JSRegExp` flag and pattern validation happens in external runtime code
and is modelled from the spec as always constructible.  Errors return
`Smi::zero()`. -/
def DS.readValue (s : DS) (container : ContainerRef) (index : Nat) : Val × DS :=
  match readUint32 s with
  | none => (.int 0, s.throw "Malformed variable")
  | some (valueTypeTag, s1) =>
    match valueTypeTag with
    | 3 => (.falseC, s1)
    | 2 => (.trueC, s1)
    | 1 => (.nullC, s1)
    | 0 => (.undef, s1)
    | 4 =>
      match readZigZag s1 with
      | none => (.int 0, s1.throw "Malformed integer")
      | some (number, s2) => (.int number, s2)
    | 5 =>
      match readDouble s1 with
      | none => (.int 0, s1.throw "Malformed double")
      | some (bytes, s2) => (.double bytes, s2)
    | 6 =>
      let (string, s2) := s1.readString false
      (.str string, s2)
    | 7 =>
      match readUint32 s1 with
      | none => (.int 0, s1.throw "Malformed variable")
      | some (arrayId, s2) =>
        if arrayId ≥ kMaxItemCount then (.int 0, s2.throw "Malformed variable")
        else if arrayId < s2.currentArrayCount then
          (.arrRef arrayId, (s2.getArray arrayId).2)
        else
          s2.addDeferredReference container index .ARRAY_ID arrayId
    | 8 =>
      match readUint32 s1 with
      | none => (.int 0, s1.throw "Malformed variable")
      | some (objectId, s2) =>
        if objectId > kMaxItemCount then (.int 0, s2.throw "Malformed variable")
        else if objectId < s2.currentObjectCount then
          (.objRef objectId, (s2.getObject objectId).2)
        else
          s2.addDeferredReference container index .OBJECT_ID objectId
    | 9 =>
      match readUint32 s1 with
      | none => (.int 0, s1.throw "Malformed object property")
      | some (functionId, s2) =>
        if functionId ≥ s2.functionCount then
          (.int 0, s2.throw "Malformed object property")
        else if functionId < s2.currentFunctionCount then
          (.funcRef functionId, (s2.getFunction functionId).2)
        else
          s2.addDeferredReference container index .FUNCTION_ID functionId
    | 10 =>
      match readUint32 s1 with
      | none => (.int 0, s1.throw "Malformed object property")
      | some (classId, s2) =>
        if classId ≥ kMaxItemCount then (.int 0, s2.throw "Malformed object property")
        else if classId < s2.currentClassCount then
          (.classRef classId, (s2.getClass classId).2)
        else
          s2.addDeferredReference container index .CLASS_ID classId
    | 11 =>
      let (pattern, s2) := s1.readString false
      let (flagsString, s3) := s2.readString false
      (.regexp pattern flagsString, s3)
    | _ => (.int 0, s1.throw "Unsupported value type")

/-- `WebSnapshotDeserializer::SetFunctionPrototype` for the function or
class in `container` and target object `t`: mark the prototype's map as
a prototype map, fail if its back pointer is already claimed, otherwise
claim it and store the prototype on the function. -/
def setFunctionPrototype (s : DS) (container : ContainerRef) (t : Nat) : Bool × DS :=
  let (objOpt, s1) := s.getObject t
  match objOpt with
  | none => (true, { s1 with confusion := true })
  | some obj =>
    let (shapeOpt, s2) := s1.getMap obj.mapId
    match shapeOpt with
    | none => (true, { s2 with confusion := true })
    | some shape =>
      if shape.claimed then (false, s2)
      else
        let s3 := s2.setMap obj.mapId { shape with claimed := true }
        let s4 :=
          match container with
          | .functionC k =>
            match s3.getFunction k with
            | (some fv, s3a) => s3a.setFunction k { fv with prototype := .objRef t }
            | (none, s3a) => { s3a with confusion := true }
          | .classC k =>
            match s3.getClass k with
            | (some fv, s3a) => s3a.setClass k { fv with prototype := .objRef t }
            | (none, s3a) => { s3a with confusion := true }
          | _ => { s3 with confusion := true }
        (true, s4)

/-- `WebSnapshotDeserializer::ReadFunctionPrototype`. -/
def readFunctionPrototype (s : DS) (container : ContainerRef) : DS :=
  match readUint32 s with
  | none => s.throw "Malformed class / function"
  | some (objectId, s1) =>
    if objectId > kMaxItemCount + 1 then s1.throw "Malformed class / function"
    else if objectId == 0 then s1
    else
      let oid := objectId - 1
      if oid < s1.currentObjectCount then
        let s2 := (s1.getObject oid).2
        let (ok, s3) := setFunctionPrototype s2 container oid
        if ok then s3 else s3.throw "Can't reuse function prototype"
      else
        (s1.addDeferredReference container 0 .OBJECT_ID oid).2

/-! #### Shapes -/

/-- `FlagsToAttributes`: bit 0 = read-only, bit 1 = configurable, bit 2
= enumerable (layout modelled from the spec; the attribute constants
READ_ONLY = 1, DONT_ENUM = 2, DONT_DELETE = 4 are V8's
`PropertyAttributes`). -/
def FlagsToAttributes (flags : Nat) : Nat :=
  (if flags.testBit 0 then 1 else 0) +
  (if flags.testBit 1 then 0 else 4) +
  (if flags.testBit 2 then 0 else 2)

/-- `GetDefaultAttributeFlags`: not read-only, configurable,
enumerable. -/
def GetDefaultAttributeFlags : Nat :=
  bitEncode 0 false + bitEncode 1 true + bitEncode 2 true

/-- `AttributesToFlags` from the property details
(read-only, configurable, enumerable). -/
def AttributesToFlags (readOnly configurable enumerable : Bool) : Nat :=
  bitEncode 0 readOnly + bitEncode 1 configurable + bitEncode 2 enumerable

/-- The per-property read of `DeserializeMaps`: optional custom
attribute flags, then the key string.  Returns `none` when a flags read
failed (the caller throws and abandons the table); a failed key read
throws inside `ReadString` but continues with the empty string, as the
C++ does. -/
def readShapeProperties : Nat → Bool → List Str → List Nat → DS →
    Option (List Str × List Nat) × DS
  | 0, _, keys, attrs, s => (some (keys, attrs), s)
  | n + 1, hasCustomPropertyAttributes, keys, attrs, s =>
    if hasCustomPropertyAttributes then
      match readUint32 s with
      | none => (none, s)
      | some (flags, s1) =>
        let attributes := FlagsToAttributes flags
        let (key, s2) := s1.readString true
        readShapeProperties n hasCustomPropertyAttributes
          (keys ++ [key]) (attrs ++ [attributes]) s2
    else
      let (key, s1) := s.readString true
      readShapeProperties n hasCustomPropertyAttributes
        (keys ++ [key]) (attrs ++ [0]) s1

/-- The per-shape loop of `WebSnapshotDeserializer::DeserializeMaps`.
A shape with zero properties stores the canonical empty map (the Object
constructor's initial map, whose back pointer is already set) at its ID
and then RETURNS from `DeserializeMaps`, abandoning the remaining
shapes — this mirrors the `return` in the source. -/
def deserializeMapsLoop : Nat → Nat → DS → DS
  | 0, _, s => s
  | fuel + 1, i, s =>
    if i < s.mapCount then
      match readUint32 s with
      | none => s.throw "Malformed shape"
      | some (mapType, s1) =>
        match (match mapType with
               | 0 => some false
               | 1 => some true
               | _ => none) with
        | none => s1.throw "Unsupported map type"
        | some hasCustomPropertyAttributes =>
          match readUint32 s1 with
          | none => s1.throw "Malformed shape"
          | some (prototypeId, s2) =>
            if prototypeId > kMaxItemCount then s2.throw "Malformed shape"
            else
              match readUint32 s2 with
              | none => s2.throw "Malformed shape"
              | some (propertyCount, s3) =>
                if propertyCount > kMaxNumberOfDescriptors then
                  s3.throw "Malformed shape: too many properties"
                else if propertyCount == 0 then
                  s3.setMap i { isCanonicalEmpty := true, keys := [],
                                attributes := [], protoDefault := true,
                                proto := .undef, claimed := true }
                else
                  match readShapeProperties propertyCount
                      hasCustomPropertyAttributes [] [] s3 with
                  | (none, s4) => s4.throw "Malformed shape"
                  | (some (keys, attrs), s4) =>
                    if prototypeId == 0 then
                      let s5 := s4.setMap i
                        { isCanonicalEmpty := false, keys := keys,
                          attributes := attrs, protoDefault := true,
                          proto := .undef, claimed := false }
                      deserializeMapsLoop fuel (i + 1) s5
                    else
                      let pid := prototypeId - 1
                      if pid < s4.currentObjectCount then
                        let s5 := (s4.getObject pid).2
                        let s6 := s5.setMap i
                          { isCanonicalEmpty := false, keys := keys,
                            attributes := attrs, protoDefault := false,
                            proto := .objRef pid, claimed := false }
                        deserializeMapsLoop fuel (i + 1) s6
                      else
                        let s5 := (s4.addDeferredReference (.mapC i) 0
                          .OBJECT_ID pid).2
                        let s6 := s5.setMap i
                          { isCanonicalEmpty := false, keys := keys,
                            attributes := attrs, protoDefault := false,
                            proto := .undef, claimed := false }
                        deserializeMapsLoop fuel (i + 1) s6
    else s

/-- `WebSnapshotDeserializer::DeserializeMaps`. -/
def deserializeMaps (s : DS) : DS :=
  match readUint32 s with
  | none => s.throw "Malformed shape table"
  | some (count, s1) =>
    let s2 := { s1 with mapCount := count }
    if count > kMaxItemCount then s2.throw "Malformed shape table"
    else
      let s3 := { s2 with maps := List.replicate count none }
      deserializeMapsLoop count 0 s3

/-! #### Contexts -/

/-- The name-reading loop of `DeserializeContexts` (one string id per
variable, written into the scope info). -/
def readContextVarNames : Nat → List Str → DS → List Str × DS
  | 0, names, s => (names, s)
  | n + 1, names, s =>
    let (name, s1) := s.readString true
    readContextVarNames n (names ++ [name]) s1

/-- The value-reading loop of `DeserializeContexts`: one value per
variable, written into the context's slot array at
`context_header_length + variable_index`. -/
def readContextSlots (ctxIndex : Nat) : Nat → Nat → CtxV → DS → CtxV × DS
  | 0, _, ctx, s => (ctx, s)
  | n + 1, variableIndex, ctx, s =>
    let contextIndex := contextHeaderLength + variableIndex
    let (value, s1) := s.readValue (.contextC ctxIndex) contextIndex
    let ctx2 := { ctx with slots := ctx.slots.set contextIndex value }
    readContextSlots ctxIndex n (variableIndex + 1) ctx2 s1

/-- The per-context loop of `WebSnapshotDeserializer::DeserializeContexts`.
A parent field greater than the record's own index is rejected
("Malformed context"); a context type other than FUNCTION or BLOCK
records an error in `CreateScopeInfo` and again aborts at the
allocation switch. -/
def deserializeContextsLoop : Nat → Nat → DS → DS
  | 0, _, s => s
  | fuel + 1, i, s =>
    if i < s.contextCount then
      match readUint32 s with
      | none => s.throw "Malformed context type"
      | some (contextType, s1) =>
        match readUint32 s1 with
        | none => s1.throw "Malformed context"
        | some (parentContextId, s2) =>
          if parentContextId > i then s2.throw "Malformed context"
          else
            match readUint32 s2 with
            | none => s2.throw "Malformed context"
            | some (variableCount, s3) =>
              let s3a := if contextType == 0 || contextType == 1 then s3
                         else s3.throw "Unsupported context type"
              let s3b := if parentContextId > 0 then
                           (s3a.getContext (parentContextId - 1)).2
                         else s3a
              let (names, s4) := readContextVarNames variableCount [] s3b
              if contextType == 0 || contextType == 1 then
                let ctx : CtxV :=
                  { parent := if parentContextId > 0 then
                                some (parentContextId - 1)
                              else none,
                    varNames := names,
                    slots := List.replicate
                      (contextHeaderLength + variableCount) .undef }
                let (ctx2, s5) := readContextSlots i variableCount 0 ctx s4
                let s6 := s5.setContext i ctx2
                deserializeContextsLoop fuel (i + 1) s6
              else s4.throw "Unsupported context type"
    else s

/-- `WebSnapshotDeserializer::DeserializeContexts`. -/
def deserializeContexts (s : DS) : DS :=
  match readUint32 s with
  | none => s.throw "Malformed context table"
  | some (count, s1) =>
    let s2 := { s1 with contextCount := count }
    if count > kMaxItemCount then s2.throw "Malformed context table"
    else
      let s3 := { s2 with contexts := List.replicate count none }
      deserializeContextsLoop count 0 s3

/-! #### Functions and classes -/

/-- `WebSnapshotDeserializer::CreateJSFunction` (the
`SharedFunctionInfo`/`Script` bookkeeping is external runtime state):
decode the flag word to a kind — an invalid word records
"Invalid function flags\n" and continues — and attach the context when
the 1-based context id is nonzero (validated by the caller). -/
def createJSFunction (s : DS) (source : Str)
    (startPosition length parameterCount flags contextId : Nat) : FuncV × DS :=
  let kindAndError := FunctionFlagsToFunctionKind flags
  let s1 := if kindAndError.2 then s.throw "Invalid function flags\n" else s
  let func : FuncV :=
    { contextId := if contextId > 0 then some (contextId - 1) else none,
      sourceStr := source, startPosition := startPosition, len := length,
      parameterCount := parameterCount, flags := flags,
      kind := kindAndError.1, prototype := .undef }
  if contextId > 0 then (func, (s1.getContext (contextId - 1)).2)
  else (func, s1)

/-- The per-function loop of
`WebSnapshotDeserializer::DeserializeFunctions`. -/
def deserializeFunctionsLoop : Nat → DS → DS
  | 0, s => s
  | fuel + 1, s =>
    if s.currentFunctionCount < s.functionCount then
      match readUint32 s with
      | none => s.throw "Malformed function"
      | some (contextId, s1) =>
        if contextId > s1.contextCount then s1.throw "Malformed function"
        else
          let (source, s2) := s1.readString false
          match readUint32 s2 with
          | none => s2.throw "Malformed function"
          | some (startPosition, s3) =>
          match readUint32 s3 with
          | none => s3.throw "Malformed function"
          | some (length, s4) =>
          match readUint32 s4 with
          | none => s4.throw "Malformed function"
          | some (parameterCount, s5) =>
          match readUint32 s5 with
          | none => s5.throw "Malformed function"
          | some (flags, s6) =>
            let (func, s7) := createJSFunction s6 source startPosition length
              parameterCount flags contextId
            let s8 := s7.setFunction s7.currentFunctionCount func
            let s9 := readFunctionPrototype s8 (.functionC s8.currentFunctionCount)
            deserializeFunctionsLoop fuel
              { s9 with currentFunctionCount := s9.currentFunctionCount + 1 }
    else s

/-- `WebSnapshotDeserializer::DeserializeFunctions`. -/
def deserializeFunctions (s : DS) : DS :=
  match readUint32 s with
  | none => s.throw "Malformed function table"
  | some (count, s1) =>
    let s2 := { s1 with functionCount := count }
    if count > kMaxItemCount then s2.throw "Malformed function table"
    else
      let s3 := { s2 with functions := List.replicate count none }
      deserializeFunctionsLoop count s3

/-- The per-class loop of
`WebSnapshotDeserializer::DeserializeClasses`. -/
def deserializeClassesLoop : Nat → DS → DS
  | 0, s => s
  | fuel + 1, s =>
    if s.currentClassCount < s.classCount then
      match readUint32 s with
      | none => s.throw "Malformed class"
      | some (contextId, s1) =>
        if contextId > s1.contextCount then s1.throw "Malformed class"
        else
          let (source, s2) := s1.readString false
          match readUint32 s2 with
          | none => s2.throw "Malformed class"
          | some (startPosition, s3) =>
          match readUint32 s3 with
          | none => s3.throw "Malformed class"
          | some (length, s4) =>
          match readUint32 s4 with
          | none => s4.throw "Malformed class"
          | some (parameterCount, s5) =>
          match readUint32 s5 with
          | none => s5.throw "Malformed class"
          | some (flags, s6) =>
            let (func, s7) := createJSFunction s6 source startPosition length
              parameterCount flags contextId
            let s8 := s7.setClass s7.currentClassCount func
            let s9 := readFunctionPrototype s8 (.classC s8.currentClassCount)
            deserializeClassesLoop fuel
              { s9 with currentClassCount := s9.currentClassCount + 1 }
    else s

/-- `WebSnapshotDeserializer::DeserializeClasses`. -/
def deserializeClasses (s : DS) : DS :=
  match readUint32 s with
  | none => s.throw "Malformed class table"
  | some (count, s1) =>
    let s2 := { s1 with classCount := count }
    if count > kMaxItemCount then s2.throw "Malformed class table"
    else
      let s3 := { s2 with classes := List.replicate count none }
      deserializeClassesLoop count s3

/-! #### Arrays and objects -/

/-- The element loop of `DeserializeArrays`: read one value per element
into the elements store of the array under construction. -/
def readArrayElements (arrIndex : Nat) : Nat → Nat → List Val → DS →
    List Val × DS
  | 0, _, elements, s => (elements, s)
  | n + 1, i, elements, s =>
    let (value, s1) := s.readValue (.arrayC arrIndex) i
    readArrayElements arrIndex n (i + 1) (elements ++ [value]) s1

/-- The per-array loop of `WebSnapshotDeserializer::DeserializeArrays`. -/
def deserializeArraysLoop : Nat → DS → DS
  | 0, s => s
  | fuel + 1, s =>
    if s.currentArrayCount < s.arrayCount then
      match readUint32 s with
      | none => s.throw "Malformed array"
      | some (length, s1) =>
        if length > kMaxItemCount then s1.throw "Malformed array"
        else
          let (elements, s2) := readArrayElements s1.currentArrayCount length 0 [] s1
          let s3 := s2.setArray s2.currentArrayCount ⟨elements⟩
          deserializeArraysLoop fuel
            { s3 with currentArrayCount := s3.currentArrayCount + 1 }
    else s

/-- `WebSnapshotDeserializer::DeserializeArrays`.  Note: the ceiling
check tests `object_count_`, not the just-read `array_count_` — this is
the source's comparison, kept as is. -/
def deserializeArrays (s : DS) : DS :=
  match readUint32 s with
  | none => s.throw "Malformed array table"
  | some (count, s1) =>
    let s2 := { s1 with arrayCount := count }
    if s2.objectCount > kMaxItemCount then s2.throw "Malformed array table"
    else
      let s3 := { s2 with arrays := List.replicate count none }
      deserializeArraysLoop count s3

/-- The property loop of `DeserializeObjects`: one value per property
declared by the object's shape, into the property array under
construction. -/
def readObjectProperties (objIndex : Nat) : Nat → Nat → List Val → DS →
    List Val × DS
  | 0, _, properties, s => (properties, s)
  | n + 1, i, properties, s =>
    let (value, s1) := s.readValue (.objectC objIndex) i
    readObjectProperties objIndex n (i + 1) (properties ++ [value]) s1

/-- The per-object loop of `WebSnapshotDeserializer::DeserializeObjects`.
`Map::cast` on a table slot that was never filled is type confusion in
the C++ (flagged via `confusion`; the model then reads zero
properties). -/
def deserializeObjectsLoop : Nat → DS → DS
  | 0, s => s
  | fuel + 1, s =>
    if s.currentObjectCount < s.objectCount then
      match readUint32 s with
      | none => s.throw "Malformed object"
      | some (mapId, s1) =>
        if mapId ≥ s1.mapCount then s1.throw "Malformed object"
        else
          match s1.getMap mapId with
          | (none, s2) =>
            let s2c := { s2 with confusion := true }
            let (properties, s3) := readObjectProperties s2c.currentObjectCount 0 0 [] s2c
            let s4 := s3.setObject s3.currentObjectCount ⟨mapId, properties⟩
            deserializeObjectsLoop fuel
              { s4 with currentObjectCount := s4.currentObjectCount + 1 }
          | (some shape, s2) =>
            let noProperties := shape.keys.length
            let (properties, s3) := readObjectProperties s2.currentObjectCount
              noProperties 0 [] s2
            let s4 := s3.setObject s3.currentObjectCount ⟨mapId, properties⟩
            deserializeObjectsLoop fuel
              { s4 with currentObjectCount := s4.currentObjectCount + 1 }
    else s

/-- `WebSnapshotDeserializer::DeserializeObjects`. -/
def deserializeObjects (s : DS) : DS :=
  match readUint32 s with
  | none => s.throw "Malformed objects table"
  | some (count, s1) =>
    let s2 := { s1 with objectCount := count }
    if count > kMaxItemCount then s2.throw "Malformed objects table"
    else
      let s3 := { s2 with objects := List.replicate count none }
      deserializeObjectsLoop count s3

/-! #### Deferred references and exports -/

/-- The target-resolution switch of `ProcessDeferredReferences`:
validate the target index against the owning table's final count and
fetch the target (`none` plus the error message when out of range; a
target type other than the four reference kinds is `UNREACHABLE`). -/
def resolveDeferredTarget (s : DS) (d : Deferred) : Option Val × DS × String :=
  match d.targetType with
  | .FUNCTION_ID =>
    if d.targetIndex ≥ s.functionCount then (none, s, "Invalid function reference")
    else (some (.funcRef d.targetIndex), (s.getFunction d.targetIndex).2, "")
  | .CLASS_ID =>
    if d.targetIndex ≥ s.classCount then (none, s, "Invalid class reference")
    else (some (.classRef d.targetIndex), (s.getClass d.targetIndex).2, "")
  | .ARRAY_ID =>
    if d.targetIndex ≥ s.arrayCount then (none, s, "Invalid array reference")
    else (some (.arrRef d.targetIndex), (s.getArray d.targetIndex).2, "")
  | .OBJECT_ID =>
    if d.targetIndex ≥ s.objectCount then (none, s, "Invalid object reference")
    else (some (.objRef d.targetIndex), (s.getObject d.targetIndex).2, "")
  | _ => (none, { s with confusion := true }, "unreachable deferred target type")

/-- The container-dispatch of `ProcessDeferredReferences`: write the
resolved target through the container (property array, context slots,
elements array, function prototype or map prototype).  Returns the new
state and whether processing aborted (a `Throw` and `return` in the
C++). -/
def applyDeferredWrite (s1 : DS) (d : Deferred) (target : Val) : DS × Bool :=
  match d.container with
  | .objectC k =>
    match s1.getObject k with
    | (some obj, s2) =>
      (s2.setObject k { obj with properties := obj.properties.set d.index target },
        false)
    | (none, s2) => ({ s2 with confusion := true }, false)
  | .contextC k =>
    match s1.getContext k with
    | (some ctx, s2) =>
      (s2.setContext k { ctx with slots := ctx.slots.set d.index target }, false)
    | (none, s2) => ({ s2 with confusion := true }, false)
  | .arrayC k =>
    match s1.getArray k with
    | (some arr, s2) =>
      (s2.setArray k { arr with elements := arr.elements.set d.index target },
        false)
    | (none, s2) => ({ s2 with confusion := true }, false)
  | .functionC _ | .classC _ =>
    match target with
    | .objRef t =>
      match setFunctionPrototype s1 d.container t with
      | (true, s2) => (s2, false)
      | (false, s2) => (s2.throw "Can't reuse function prototype", true)
    | _ => ({ s1 with confusion := true }, false)
  | .mapC k =>
    match s1.getMap k with
    | (some shape, s2) => (s2.setMap k { shape with proto := target }, false)
    | (none, s2) => ({ s2 with confusion := true }, false)
  | .nullRef => ({ s1 with confusion := true }, false)

/-- One tuple of `ProcessDeferredReferences`: resolve the target, then
write it through the container. -/
def processDeferredStep (s : DS) (d : Deferred) : DS × Bool :=
  match resolveDeferredTarget s d with
  | (none, s1, message) => (s1.throw message, true)
  | (some target, s1, _) => applyDeferredWrite s1 d target

/-- The tuple loop of `ProcessDeferredReferences`; when it finishes the
list is cleared (`SetLength(0)`); an aborting step already cleared it
inside `Throw`. -/
def processDeferredLoop : List Deferred → DS → DS
  | [], s => { s with deferredReferences := [] }
  | d :: rest, s =>
    match processDeferredStep s d with
    | (s1, true) => s1
    | (s1, false) => processDeferredLoop rest s1

/-- `WebSnapshotDeserializer::ProcessDeferredReferences` (returns at
once when an error is already recorded). -/
def processDeferredReferences (s : DS) : DS :=
  if s.hasError then s else processDeferredLoop s.deferredReferences s

/-- The per-export loop of `WebSnapshotDeserializer::DeserializeExports`:
decode a (name, value) pair, then check the sticky error before adding
the binding to the dictionary; when every export decoded cleanly, the
final iteration installs the dictionary into the global object
(`set_global_dictionary`). -/
def deserializeExportsLoop : Nat → List (Str × Val) → DS → DS
  | 0, dictionary, s =>
    { s with global := dictionary, events := s.events ++ [.installedDictionary] }
  | n + 1, dictionary, s =>
    let (exportName, s1) := s.readString true
    let (exportValue, s2) := s1.readValue ContainerRef.nullRef 0
    let s3 := { s2 with
      events := s2.events ++ [Ev.decodedExport exportName exportValue] }
    if s3.hasError then s3
    else
      deserializeExportsLoop n (dictionary ++ [(exportName, exportValue)])
        { s3 with events := s3.events ++ [Ev.addedBinding exportName] }

/-- `WebSnapshotDeserializer::DeserializeExports`: read the export
count, reserve capacity in the global dictionary
(`GlobalDictionary::EnsureCapacity`), then run the per-export loop over
the dictionary handle. -/
def deserializeExports (s : DS) : DS :=
  match readUint32 s with
  | none => s.throw "Malformed export table"
  | some (count, s1) =>
    if count > kMaxItemCount then s1.throw "Malformed export table"
    else
      let s2 := { s1 with events := s1.events ++ [.reserveCapacity count] }
      deserializeExportsLoop count s2.global s2

/-- `WebSnapshotDeserializer::DeserializeSnapshot`: magic number, the
eight table stages in wire order, deferred-reference resolution, then
exports. -/
def deserializeSnapshot (s : DS) : Bool × DS :=
  let s0 := { s with deferredReferences := [] }
  match readRawBytes s0 4 with
  | none => (false, s0.throw "Invalid magic number")
  | some (magicBytes, s1) =>
    if magicBytes ≠ kMagicNumber then (false, s1.throw "Invalid magic number")
    else
      let s2 := deserializeStrings s1
      let s3 := deserializeMaps s2
      let s4 := deserializeContexts s3
      let s5 := deserializeFunctions s4
      let s6 := deserializeArrays s5
      let s7 := deserializeObjects s6
      let s8 := deserializeClasses s7
      let s9 := processDeferredReferences s8
      let s10 := deserializeExports s9
      (!s10.hasError, s10)

/-- `WebSnapshotDeserializer::Deserialize`: single-use guard, then the
snapshot proper (the trailing bytes, if any, are compiled and run as an
ordinary script by external code). -/
def Deserialize (s : DS) : Bool × DS :=
  if s.deserialized then (false, s.throw "Can't reuse WebSnapshotDeserializer")
  else
    let s1 := { s with deserialized := true }
    let result := deserializeSnapshot s1
    (result.1 && !result.2.hasError, result.2)

/-! ### Write-side byte codec

Modelled from the spec, matching the readers above: `WriteUint32` emits
four little-endian bytes, `WriteZigZag` a variable-length base-128
zigzag integer, strings a length prefix plus raw bytes. -/

/-- `WriteUint32`. -/
def writeUint32Bytes (n : Nat) : List Nat :=
  [n % 256, n / 256 % 256, n / 65536 % 256, n / 16777216 % 256]

/-- Variable-length base-128 integer bytes. -/
def writeVarintBytes : Nat → Nat → List Nat
  | 0, _ => []
  | fuel + 1, n =>
    if n < 128 then [n] else (128 + n % 128) :: writeVarintBytes fuel (n / 128)

/-- `WriteZigZag<int32_t>`. -/
def writeZigZagBytes (n : Int) : List Nat :=
  let zig : Nat := if 0 ≤ n then 2 * n.toNat else 2 * (-n).toNat - 1
  writeVarintBytes 5 (zig % 4294967296)

/-- A length-prefixed string record (`SerializeString`'s wire form). -/
def writeStringRecord (str : Str) : List Nat :=
  writeUint32Bytes str.length ++ str

/-! ### Frame lemmas

Every part of the deserializer other than the export installer leaves
the global dictionary, the event log, the input data and the
`deserialized` flag unchanged.  `Frame s t` packages those four
equalities. -/

/-- State `t` agrees with `s` on the globals, events, input data and
the single-use flag. -/
def Frame (s t : DS) : Prop :=
  t.global = s.global ∧ t.events = s.events ∧ t.data = s.data ∧
  t.deserialized = s.deserialized

theorem Frame.refl (s : DS) : Frame s s := ⟨rfl, rfl, rfl, rfl⟩

theorem Frame.trans {s t u : DS} (h1 : Frame s t) (h2 : Frame t u) : Frame s u :=
  ⟨h2.1.trans h1.1, h2.2.1.trans h1.2.1, h2.2.2.1.trans h1.2.2.1,
   h2.2.2.2.trans h1.2.2.2⟩

theorem auxFrameThrow (s : DS) (m : String) : Frame s (s.throw m) := by
  unfold DS.throw Frame
  split <;> exact ⟨rfl, rfl, rfl, rfl⟩

theorem auxFrameReadByte (s : DS) (n : Nat) (t : DS) (h : readByte s = some (n, t)) :
    Frame s t := by
  unfold readByte at h
  split at h
  · simp only [Option.some.injEq, Prod.mk.injEq] at h
    rw [← h.2]
    exact ⟨rfl, rfl, rfl, rfl⟩
  · cases h

theorem auxFrameReadUint32 (s : DS) (n : Nat) (t : DS)
    (h : readUint32 s = some (n, t)) : Frame s t := by
  unfold readUint32 at h
  split at h
  · simp only [Option.some.injEq, Prod.mk.injEq] at h
    rw [← h.2]
    exact ⟨rfl, rfl, rfl, rfl⟩
  · cases h

theorem auxFrameReadRawBytes (s : DS) (n : Nat) (bs : List Nat) (t : DS)
    (h : readRawBytes s n = some (bs, t)) : Frame s t := by
  unfold readRawBytes at h
  split at h
  · simp only [Option.some.injEq, Prod.mk.injEq] at h
    rw [← h.2]
    exact ⟨rfl, rfl, rfl, rfl⟩
  · cases h

theorem auxFrameReadVarintAux (fuel : Nat) :
    ∀ (shift acc : Nat) (s : DS) (n : Nat) (t : DS),
      readVarintAux fuel shift acc s = some (n, t) → Frame s t := by
  induction fuel with
  | zero => intro _ _ _ _ _ h; cases h
  | succ fuel ih =>
    intro shift acc s n t h
    unfold readVarintAux at h
    match hb : readByte s with
    | none => rw [hb] at h; cases h
    | some (b, s1) =>
      rw [hb] at h
      simp only at h
      have hf1 := auxFrameReadByte s b s1 hb
      split at h
      · simp only [Option.some.injEq, Prod.mk.injEq] at h
        rw [← h.2]
        exact hf1
      · exact Frame.trans hf1 (ih _ _ _ _ _ h)

theorem auxFrameReadZigZag (s : DS) (n : Int) (t : DS)
    (h : readZigZag s = some (n, t)) : Frame s t := by
  unfold readZigZag at h
  match hv : readVarintAux 5 0 0 s with
  | none => rw [hv] at h; cases h
  | some (z, s1) =>
    rw [hv] at h
    have hf := auxFrameReadVarintAux 5 0 0 s z s1 hv
    simp only [Option.some.injEq] at h
    split at h <;>
      (rw [Prod.mk.injEq] at h; rw [← h.2]; exact hf)

theorem auxFrameReadDouble (s : DS) (bs : List Nat) (t : DS)
    (h : readDouble s = some (bs, t)) : Frame s t :=
  auxFrameReadRawBytes s 8 bs t h

theorem auxFrameReadUtf8String (s : DS) (str : Str) (t : DS)
    (h : readUtf8String s = some (str, t)) : Frame s t := by
  unfold readUtf8String at h
  match hu : readUint32 s with
  | none => rw [hu] at h; cases h
  | some (len, s1) =>
    rw [hu] at h
    exact Frame.trans (auxFrameReadUint32 s len s1 hu)
      (auxFrameReadRawBytes s1 len str t h)

theorem auxFrameGetString (s : DS) (i : Nat) : Frame s (s.getString i).2 := by
  unfold Frame DS.getString
  split <;> exact ⟨rfl, rfl, rfl, rfl⟩

theorem auxFrameSetString (s : DS) (i : Nat) (v : Str) :
    Frame s (s.setString i v) := ⟨rfl, rfl, rfl, rfl⟩

theorem auxFrameGetMap (s : DS) (i : Nat) : Frame s (s.getMap i).2 := by
  unfold Frame DS.getMap
  split <;> exact ⟨rfl, rfl, rfl, rfl⟩

theorem auxFrameSetMap (s : DS) (i : Nat) (v : ShapeV) :
    Frame s (s.setMap i v) := ⟨rfl, rfl, rfl, rfl⟩

theorem auxFrameGetContext (s : DS) (i : Nat) : Frame s (s.getContext i).2 := by
  unfold Frame DS.getContext
  split <;> exact ⟨rfl, rfl, rfl, rfl⟩

theorem auxFrameSetContext (s : DS) (i : Nat) (v : CtxV) :
    Frame s (s.setContext i v) := ⟨rfl, rfl, rfl, rfl⟩

theorem auxFrameGetFunction (s : DS) (i : Nat) : Frame s (s.getFunction i).2 := by
  unfold Frame DS.getFunction
  split <;> exact ⟨rfl, rfl, rfl, rfl⟩

theorem auxFrameSetFunction (s : DS) (i : Nat) (v : FuncV) :
    Frame s (s.setFunction i v) := ⟨rfl, rfl, rfl, rfl⟩

theorem auxFrameGetClass (s : DS) (i : Nat) : Frame s (s.getClass i).2 := by
  unfold Frame DS.getClass
  split <;> exact ⟨rfl, rfl, rfl, rfl⟩

theorem auxFrameSetClass (s : DS) (i : Nat) (v : FuncV) :
    Frame s (s.setClass i v) := ⟨rfl, rfl, rfl, rfl⟩

theorem auxFrameGetArray (s : DS) (i : Nat) : Frame s (s.getArray i).2 := by
  unfold Frame DS.getArray
  split <;> exact ⟨rfl, rfl, rfl, rfl⟩

theorem auxFrameSetArray (s : DS) (i : Nat) (v : ArrV) :
    Frame s (s.setArray i v) := ⟨rfl, rfl, rfl, rfl⟩

theorem auxFrameGetObject (s : DS) (i : Nat) : Frame s (s.getObject i).2 := by
  unfold Frame DS.getObject
  split <;> exact ⟨rfl, rfl, rfl, rfl⟩

theorem auxFrameSetObject (s : DS) (i : Nat) (v : ObjV) :
    Frame s (s.setObject i v) := ⟨rfl, rfl, rfl, rfl⟩

theorem auxFrameReadString (s : DS) (b : Bool) : Frame s (s.readString b).2 := by
  unfold DS.readString
  match hu : readUint32 s with
  | none => exact auxFrameThrow s _
  | some (stringId, s1) =>
    have hf := auxFrameReadUint32 s stringId s1 hu
    dsimp only
    split
    · exact Frame.trans hf (auxFrameThrow s1 _)
    · exact Frame.trans hf (auxFrameGetString s1 stringId)

theorem auxFrameAddDeferredReference (s : DS) (c : ContainerRef) (i : Nat)
    (tt : ValueType) (ti : Nat) :
    Frame s (s.addDeferredReference c i tt ti).2 := by
  unfold DS.addDeferredReference
  match c with
  | .nullRef => exact auxFrameThrow s _
  | .mapC k => exact ⟨rfl, rfl, rfl, rfl⟩
  | .contextC k => exact ⟨rfl, rfl, rfl, rfl⟩
  | .functionC k => exact ⟨rfl, rfl, rfl, rfl⟩
  | .classC k => exact ⟨rfl, rfl, rfl, rfl⟩
  | .arrayC k => exact ⟨rfl, rfl, rfl, rfl⟩
  | .objectC k => exact ⟨rfl, rfl, rfl, rfl⟩

theorem auxFrameReadValue (s : DS) (c : ContainerRef) (i : Nat) :
    Frame s (s.readValue c i).2 := by
  unfold DS.readValue
  match hu : readUint32 s with
  | none => exact auxFrameThrow s _
  | some (tag, s1) =>
    have hf := auxFrameReadUint32 s tag s1 hu
    refine Frame.trans hf ?_
    match tag with
    | 3 => exact Frame.refl s1
    | 2 => exact Frame.refl s1
    | 1 => exact Frame.refl s1
    | 0 => exact Frame.refl s1
    | 4 =>
      dsimp only
      match hz : readZigZag s1 with
      | none => exact auxFrameThrow s1 _
      | some (z, s2) => exact auxFrameReadZigZag s1 z s2 hz
    | 5 =>
      dsimp only
      match hd : readDouble s1 with
      | none => exact auxFrameThrow s1 _
      | some (bs, s2) => exact auxFrameReadDouble s1 bs s2 hd
    | 6 => exact auxFrameReadString s1 false
    | 7 =>
      dsimp only
      match hu2 : readUint32 s1 with
      | none => exact auxFrameThrow s1 _
      | some (arrayId, s2) =>
        have hf2 := auxFrameReadUint32 s1 arrayId s2 hu2
        refine Frame.trans hf2 ?_
        dsimp only
        split
        · exact auxFrameThrow s2 _
        · split
          · exact auxFrameGetArray s2 arrayId
          · exact auxFrameAddDeferredReference s2 c i .ARRAY_ID arrayId
    | 8 =>
      dsimp only
      match hu2 : readUint32 s1 with
      | none => exact auxFrameThrow s1 _
      | some (objectId, s2) =>
        have hf2 := auxFrameReadUint32 s1 objectId s2 hu2
        refine Frame.trans hf2 ?_
        dsimp only
        split
        · exact auxFrameThrow s2 _
        · split
          · exact auxFrameGetObject s2 objectId
          · exact auxFrameAddDeferredReference s2 c i .OBJECT_ID objectId
    | 9 =>
      dsimp only
      match hu2 : readUint32 s1 with
      | none => exact auxFrameThrow s1 _
      | some (functionId, s2) =>
        have hf2 := auxFrameReadUint32 s1 functionId s2 hu2
        refine Frame.trans hf2 ?_
        dsimp only
        split
        · exact auxFrameThrow s2 _
        · split
          · exact auxFrameGetFunction s2 functionId
          · exact auxFrameAddDeferredReference s2 c i .FUNCTION_ID functionId
    | 10 =>
      dsimp only
      match hu2 : readUint32 s1 with
      | none => exact auxFrameThrow s1 _
      | some (classId, s2) =>
        have hf2 := auxFrameReadUint32 s1 classId s2 hu2
        refine Frame.trans hf2 ?_
        dsimp only
        split
        · exact auxFrameThrow s2 _
        · split
          · exact auxFrameGetClass s2 classId
          · exact auxFrameAddDeferredReference s2 c i .CLASS_ID classId
    | 11 =>
      dsimp only
      refine Frame.trans (auxFrameReadString s1 false) ?_
      exact auxFrameReadString (s1.readString false).2 false
    | (n + 12) => exact auxFrameThrow s1 _

theorem auxFrameSetFunctionPrototype (s : DS) (c : ContainerRef) (t : Nat) :
    Frame s (setFunctionPrototype s c t).2 := by
  unfold setFunctionPrototype
  match hg : s.getObject t with
  | (none, s1) =>
    have hf : Frame s s1 := by
      have := auxFrameGetObject s t
      rw [hg] at this
      exact this
    exact Frame.trans hf ⟨rfl, rfl, rfl, rfl⟩
  | (some obj, s1) =>
    have hf : Frame s s1 := by
      have := auxFrameGetObject s t
      rw [hg] at this
      exact this
    dsimp only
    match hm : s1.getMap obj.mapId with
    | (none, s2) =>
      have hf2 : Frame s1 s2 := by
        have := auxFrameGetMap s1 obj.mapId
        rw [hm] at this
        exact this
      exact Frame.trans hf (Frame.trans hf2 ⟨rfl, rfl, rfl, rfl⟩)
    | (some shape, s2) =>
      have hf2 : Frame s1 s2 := by
        have := auxFrameGetMap s1 obj.mapId
        rw [hm] at this
        exact this
      refine Frame.trans hf (Frame.trans hf2 ?_)
      dsimp only
      split
      · exact Frame.refl s2
      · have hf3 := auxFrameSetMap s2 obj.mapId { shape with claimed := true }
        refine Frame.trans hf3 ?_
        set s3 := s2.setMap obj.mapId { shape with claimed := true } with hs3
        match c with
        | .functionC k =>
          dsimp only
          match hgf : s3.getFunction k with
          | (some fv, s3a) =>
            have hf4 : Frame s3 s3a := by
              have := auxFrameGetFunction s3 k
              rw [hgf] at this
              exact this
            exact Frame.trans hf4 (auxFrameSetFunction s3a k _)
          | (none, s3a) =>
            have hf4 : Frame s3 s3a := by
              have := auxFrameGetFunction s3 k
              rw [hgf] at this
              exact this
            exact Frame.trans hf4 ⟨rfl, rfl, rfl, rfl⟩
        | .classC k =>
          dsimp only
          match hgf : s3.getClass k with
          | (some fv, s3a) =>
            have hf4 : Frame s3 s3a := by
              have := auxFrameGetClass s3 k
              rw [hgf] at this
              exact this
            exact Frame.trans hf4 (auxFrameSetClass s3a k _)
          | (none, s3a) =>
            have hf4 : Frame s3 s3a := by
              have := auxFrameGetClass s3 k
              rw [hgf] at this
              exact this
            exact Frame.trans hf4 ⟨rfl, rfl, rfl, rfl⟩
        | .nullRef => exact ⟨rfl, rfl, rfl, rfl⟩
        | .mapC k => exact ⟨rfl, rfl, rfl, rfl⟩
        | .contextC k => exact ⟨rfl, rfl, rfl, rfl⟩
        | .arrayC k => exact ⟨rfl, rfl, rfl, rfl⟩
        | .objectC k => exact ⟨rfl, rfl, rfl, rfl⟩

theorem auxFrameReadFunctionPrototype (s : DS) (c : ContainerRef) :
    Frame s (readFunctionPrototype s c) := by
  unfold readFunctionPrototype
  match hu : readUint32 s with
  | none => exact auxFrameThrow s _
  | some (objectId, s1) =>
    have hf := auxFrameReadUint32 s objectId s1 hu
    refine Frame.trans hf ?_
    dsimp only
    split
    · exact auxFrameThrow s1 _
    · split
      · exact Frame.refl s1
      · split
        · refine Frame.trans (auxFrameGetObject s1 (objectId - 1)) ?_
          set s2 := (s1.getObject (objectId - 1)).2
          have hsp := auxFrameSetFunctionPrototype s2 c (objectId - 1)
          split
          · exact hsp
          · exact Frame.trans hsp (auxFrameThrow _ _)
        · exact auxFrameAddDeferredReference s1 c 0 .OBJECT_ID (objectId - 1)

theorem auxFrameDeserializeStringsLoop (fuel : Nat) :
    ∀ (i : Nat) (s : DS), Frame s (deserializeStringsLoop fuel i s) := by
  induction fuel with
  | zero => intro i s; exact Frame.refl s
  | succ fuel ih =>
    intro i s
    unfold deserializeStringsLoop
    split
    · match hu : readUtf8String s with
      | none => exact auxFrameThrow s _
      | some (str, s1) =>
        have hf := auxFrameReadUtf8String s str s1 hu
        exact Frame.trans (Frame.trans hf (auxFrameSetString s1 i str)) (ih _ _)
    · exact Frame.refl s

theorem auxFrameDeserializeStrings (s : DS) : Frame s (deserializeStrings s) := by
  unfold deserializeStrings
  match hu : readUint32 s with
  | none => exact auxFrameThrow s _
  | some (count, s1) =>
    have hf := auxFrameReadUint32 s count s1 hu
    refine Frame.trans hf ?_
    dsimp only
    split
    · exact auxFrameThrow _ _
    · exact Frame.trans (⟨rfl, rfl, rfl, rfl⟩ : Frame _ _)
        (auxFrameDeserializeStringsLoop count 0 _)

theorem auxFrameReadShapeProperties (n : Nat) :
    ∀ (b : Bool) (keys : List Str) (attrs : List Nat) (s : DS),
      Frame s (readShapeProperties n b keys attrs s).2 := by
  induction n with
  | zero => intro b keys attrs s; exact Frame.refl s
  | succ n ih =>
    intro b keys attrs s
    unfold readShapeProperties
    split
    · match hu : readUint32 s with
      | none => exact Frame.refl s
      | some (flags, s1) =>
        have hf := auxFrameReadUint32 s flags s1 hu
        dsimp only
        refine Frame.trans hf ?_
        exact Frame.trans (auxFrameReadString s1 true) (ih _ _ _ _)
    · exact Frame.trans (auxFrameReadString s true) (ih _ _ _ _)

theorem auxFrameDeserializeMapsLoop (fuel : Nat) :
    ∀ (i : Nat) (s : DS), Frame s (deserializeMapsLoop fuel i s) := by
  induction fuel with
  | zero => intro i s; exact Frame.refl s
  | succ fuel ih =>
    intro i s
    unfold deserializeMapsLoop
    split
    · match hu : readUint32 s with
      | none => exact auxFrameThrow s _
      | some (mapType, s1) =>
        have hf := auxFrameReadUint32 s mapType s1 hu
        refine Frame.trans hf ?_
        dsimp only
        split
        · exact auxFrameThrow s1 _
        · rename_i x hca heq2
          match hu2 : readUint32 s1 with
          | none => exact auxFrameThrow s1 _
          | some (prototypeId, s2) =>
            have hf2 := auxFrameReadUint32 s1 prototypeId s2 hu2
            refine Frame.trans hf2 ?_
            dsimp only
            split
            · exact auxFrameThrow s2 _
            · match hu3 : readUint32 s2 with
              | none => exact auxFrameThrow s2 _
              | some (propertyCount, s3) =>
                have hf3 := auxFrameReadUint32 s2 propertyCount s3 hu3
                refine Frame.trans hf3 ?_
                dsimp only
                split
                · exact auxFrameThrow s3 _
                · split
                  · exact auxFrameSetMap s3 i _
                  · match hp : readShapeProperties propertyCount hca [] [] s3 with
                    | (none, s4) =>
                      have hf4 : Frame s3 s4 := by
                        have := auxFrameReadShapeProperties propertyCount hca [] [] s3
                        rw [hp] at this
                        exact this
                      exact Frame.trans hf4 (auxFrameThrow s4 _)
                    | (some (keys, attrs), s4) =>
                      have hf4 : Frame s3 s4 := by
                        have := auxFrameReadShapeProperties propertyCount hca [] [] s3
                        rw [hp] at this
                        exact this
                      refine Frame.trans hf4 ?_
                      dsimp only
                      split
                      · exact Frame.trans (auxFrameSetMap s4 i _) (ih _ _)
                      · split
                        · refine Frame.trans
                            (auxFrameGetObject s4 (prototypeId - 1)) ?_
                          exact Frame.trans
                            (auxFrameSetMap (s4.getObject (prototypeId - 1)).2 i _)
                            (ih _ _)
                        · refine Frame.trans
                            (auxFrameAddDeferredReference s4 (.mapC i) 0 .OBJECT_ID
                              (prototypeId - 1)) ?_
                          exact Frame.trans
                            (auxFrameSetMap
                              (s4.addDeferredReference (.mapC i) 0 .OBJECT_ID
                                (prototypeId - 1)).2 i _)
                            (ih _ _)
    · exact Frame.refl s

theorem auxFrameDeserializeMaps (s : DS) : Frame s (deserializeMaps s) := by
  unfold deserializeMaps
  match hu : readUint32 s with
  | none => exact auxFrameThrow s _
  | some (count, s1) =>
    have hf := auxFrameReadUint32 s count s1 hu
    refine Frame.trans hf ?_
    dsimp only
    split
    · exact auxFrameThrow _ _
    · exact Frame.trans (⟨rfl, rfl, rfl, rfl⟩ : Frame _ _)
        (auxFrameDeserializeMapsLoop count 0 _)

theorem auxFrameReadContextVarNames (n : Nat) :
    ∀ (names : List Str) (s : DS), Frame s (readContextVarNames n names s).2 := by
  induction n with
  | zero => intro names s; exact Frame.refl s
  | succ n ih =>
    intro names s
    unfold readContextVarNames
    exact Frame.trans (auxFrameReadString s true) (ih _ _)

theorem auxFrameReadContextSlots (ci : Nat) (n : Nat) :
    ∀ (vi : Nat) (ctx : CtxV) (s : DS),
      Frame s (readContextSlots ci n vi ctx s).2 := by
  induction n with
  | zero => intro vi ctx s; exact Frame.refl s
  | succ n ih =>
    intro vi ctx s
    unfold readContextSlots
    exact Frame.trans (auxFrameReadValue s (.contextC ci) _) (ih _ _ _)

theorem auxFrameDeserializeContextsLoop (fuel : Nat) :
    ∀ (i : Nat) (s : DS), Frame s (deserializeContextsLoop fuel i s) := by
  induction fuel with
  | zero => intro i s; exact Frame.refl s
  | succ fuel ih =>
    intro i s
    unfold deserializeContextsLoop
    split
    · match hu : readUint32 s with
      | none => exact auxFrameThrow s _
      | some (contextType, s1) =>
        have hf := auxFrameReadUint32 s contextType s1 hu
        refine Frame.trans hf ?_
        dsimp only
        match hu2 : readUint32 s1 with
        | none => exact auxFrameThrow s1 _
        | some (parentContextId, s2) =>
          have hf2 := auxFrameReadUint32 s1 parentContextId s2 hu2
          refine Frame.trans hf2 ?_
          dsimp only
          split
          · exact auxFrameThrow s2 _
          · match hu3 : readUint32 s2 with
            | none => exact auxFrameThrow s2 _
            | some (variableCount, s3) =>
              have hf3 := auxFrameReadUint32 s2 variableCount s3 hu3
              refine Frame.trans hf3 ?_
              dsimp only
              have hfa : Frame s3 (if contextType == 0 || contextType == 1 then s3
                  else s3.throw "Unsupported context type") := by
                split
                · exact Frame.refl s3
                · exact auxFrameThrow s3 _
              refine Frame.trans hfa ?_
              set s3a := if contextType == 0 || contextType == 1 then s3
                  else s3.throw "Unsupported context type"
              have hfb : Frame s3a (if parentContextId > 0 then
                  (s3a.getContext (parentContextId - 1)).2 else s3a) := by
                split
                · exact auxFrameGetContext s3a _
                · exact Frame.refl s3a
              refine Frame.trans hfb ?_
              set s3b := if parentContextId > 0 then
                  (s3a.getContext (parentContextId - 1)).2 else s3a
              match hn : readContextVarNames variableCount [] s3b with
              | (names, s4) =>
                have hf4 : Frame s3b s4 := by
                  have := auxFrameReadContextVarNames variableCount [] s3b
                  rw [hn] at this
                  exact this
                refine Frame.trans hf4 ?_
                dsimp only
                split
                · match hs : readContextSlots i variableCount 0
                      { parent := if parentContextId > 0 then
                          some (parentContextId - 1) else none,
                        varNames := names,
                        slots := List.replicate
                          (contextHeaderLength + variableCount) Val.undef } s4 with
                  | (ctx2, s5) =>
                    have hf5 : Frame s4 s5 := by
                      have := auxFrameReadContextSlots i variableCount 0
                        { parent := if parentContextId > 0 then
                            some (parentContextId - 1) else none,
                          varNames := names,
                          slots := List.replicate
                            (contextHeaderLength + variableCount) Val.undef } s4
                      rw [hs] at this
                      exact this
                    exact Frame.trans hf5
                      (Frame.trans (auxFrameSetContext s5 i ctx2) (ih _ _))
                · exact auxFrameThrow s4 _
    · exact Frame.refl s

theorem auxFrameDeserializeContexts (s : DS) : Frame s (deserializeContexts s) := by
  unfold deserializeContexts
  match hu : readUint32 s with
  | none => exact auxFrameThrow s _
  | some (count, s1) =>
    have hf := auxFrameReadUint32 s count s1 hu
    refine Frame.trans hf ?_
    dsimp only
    split
    · exact auxFrameThrow _ _
    · exact Frame.trans (⟨rfl, rfl, rfl, rfl⟩ : Frame _ _)
        (auxFrameDeserializeContextsLoop count 0 _)

theorem auxFrameCreateJSFunction (s : DS) (source : Str)
    (startPosition length parameterCount flags contextId : Nat) :
    Frame s (createJSFunction s source startPosition length parameterCount
      flags contextId).2 := by
  unfold createJSFunction
  dsimp only
  have hf1 : Frame s (if (FunctionFlagsToFunctionKind flags).2 then
      s.throw "Invalid function flags\n" else s) := by
    split
    · exact auxFrameThrow s _
    · exact Frame.refl s
  split
  · exact Frame.trans hf1 (auxFrameGetContext _ _)
  · exact hf1

theorem auxFrameDeserializeFunctionsLoop (fuel : Nat) :
    ∀ s : DS, Frame s (deserializeFunctionsLoop fuel s) := by
  induction fuel with
  | zero => intro s; exact Frame.refl s
  | succ fuel ih =>
    intro s
    unfold deserializeFunctionsLoop
    split
    · match hu : readUint32 s with
      | none => exact auxFrameThrow s _
      | some (contextId, s1) =>
        have hf := auxFrameReadUint32 s contextId s1 hu
        refine Frame.trans hf ?_
        dsimp only
        split
        · exact auxFrameThrow s1 _
        · refine Frame.trans (auxFrameReadString s1 false) ?_
          set s2 := (s1.readString false).2
          match hu2 : readUint32 s2 with
          | none => exact auxFrameThrow s2 _
          | some (startPosition, s3) =>
            have hf3 := auxFrameReadUint32 s2 startPosition s3 hu2
            refine Frame.trans hf3 ?_
            dsimp only
            match hu3 : readUint32 s3 with
            | none => exact auxFrameThrow s3 _
            | some (length, s4) =>
              have hf4 := auxFrameReadUint32 s3 length s4 hu3
              refine Frame.trans hf4 ?_
              dsimp only
              match hu4 : readUint32 s4 with
              | none => exact auxFrameThrow s4 _
              | some (parameterCount, s5) =>
                have hf5 := auxFrameReadUint32 s4 parameterCount s5 hu4
                refine Frame.trans hf5 ?_
                dsimp only
                match hu5 : readUint32 s5 with
                | none => exact auxFrameThrow s5 _
                | some (flags, s6) =>
                  have hf6 := auxFrameReadUint32 s5 flags s6 hu5
                  refine Frame.trans hf6 ?_
                  dsimp only
                  match hc : createJSFunction s6
                      (s1.readString false).1 startPosition length
                      parameterCount flags contextId with
                  | (func, s7) =>
                    have hf7 : Frame s6 s7 := by
                      have := auxFrameCreateJSFunction s6
                        (s1.readString false).1 startPosition length
                        parameterCount flags contextId
                      rw [hc] at this
                      exact this
                    dsimp only
                    refine Frame.trans hf7 ?_
                    refine Frame.trans
                      (auxFrameSetFunction s7 s7.currentFunctionCount func) ?_
                    refine Frame.trans
                      (auxFrameReadFunctionPrototype
                        (s7.setFunction s7.currentFunctionCount func)
                        (.functionC (s7.setFunction s7.currentFunctionCount
                          func).currentFunctionCount)) ?_
                    exact Frame.trans (⟨rfl, rfl, rfl, rfl⟩ : Frame _ _) (ih _)
    · exact Frame.refl s

theorem auxFrameDeserializeFunctions (s : DS) : Frame s (deserializeFunctions s) := by
  unfold deserializeFunctions
  match hu : readUint32 s with
  | none => exact auxFrameThrow s _
  | some (count, s1) =>
    have hf := auxFrameReadUint32 s count s1 hu
    refine Frame.trans hf ?_
    dsimp only
    split
    · exact auxFrameThrow _ _
    · exact Frame.trans (⟨rfl, rfl, rfl, rfl⟩ : Frame _ _)
        (auxFrameDeserializeFunctionsLoop count _)

theorem auxFrameDeserializeClassesLoop (fuel : Nat) :
    ∀ s : DS, Frame s (deserializeClassesLoop fuel s) := by
  induction fuel with
  | zero => intro s; exact Frame.refl s
  | succ fuel ih =>
    intro s
    unfold deserializeClassesLoop
    split
    · match hu : readUint32 s with
      | none => exact auxFrameThrow s _
      | some (contextId, s1) =>
        have hf := auxFrameReadUint32 s contextId s1 hu
        refine Frame.trans hf ?_
        dsimp only
        split
        · exact auxFrameThrow s1 _
        · refine Frame.trans (auxFrameReadString s1 false) ?_
          set s2 := (s1.readString false).2
          match hu2 : readUint32 s2 with
          | none => exact auxFrameThrow s2 _
          | some (startPosition, s3) =>
            have hf3 := auxFrameReadUint32 s2 startPosition s3 hu2
            refine Frame.trans hf3 ?_
            dsimp only
            match hu3 : readUint32 s3 with
            | none => exact auxFrameThrow s3 _
            | some (length, s4) =>
              have hf4 := auxFrameReadUint32 s3 length s4 hu3
              refine Frame.trans hf4 ?_
              dsimp only
              match hu4 : readUint32 s4 with
              | none => exact auxFrameThrow s4 _
              | some (parameterCount, s5) =>
                have hf5 := auxFrameReadUint32 s4 parameterCount s5 hu4
                refine Frame.trans hf5 ?_
                dsimp only
                match hu5 : readUint32 s5 with
                | none => exact auxFrameThrow s5 _
                | some (flags, s6) =>
                  have hf6 := auxFrameReadUint32 s5 flags s6 hu5
                  refine Frame.trans hf6 ?_
                  dsimp only
                  match hc : createJSFunction s6
                      (s1.readString false).1 startPosition length
                      parameterCount flags contextId with
                  | (func, s7) =>
                    have hf7 : Frame s6 s7 := by
                      have := auxFrameCreateJSFunction s6
                        (s1.readString false).1 startPosition length
                        parameterCount flags contextId
                      rw [hc] at this
                      exact this
                    dsimp only
                    refine Frame.trans hf7 ?_
                    refine Frame.trans
                      (auxFrameSetClass s7 s7.currentClassCount func) ?_
                    refine Frame.trans
                      (auxFrameReadFunctionPrototype
                        (s7.setClass s7.currentClassCount func)
                        (.classC (s7.setClass s7.currentClassCount
                          func).currentClassCount)) ?_
                    exact Frame.trans (⟨rfl, rfl, rfl, rfl⟩ : Frame _ _) (ih _)
    · exact Frame.refl s

theorem auxFrameDeserializeClasses (s : DS) : Frame s (deserializeClasses s) := by
  unfold deserializeClasses
  match hu : readUint32 s with
  | none => exact auxFrameThrow s _
  | some (count, s1) =>
    have hf := auxFrameReadUint32 s count s1 hu
    refine Frame.trans hf ?_
    dsimp only
    split
    · exact auxFrameThrow _ _
    · exact Frame.trans (⟨rfl, rfl, rfl, rfl⟩ : Frame _ _)
        (auxFrameDeserializeClassesLoop count _)

theorem auxFrameReadArrayElements (ai : Nat) (n : Nat) :
    ∀ (i : Nat) (elements : List Val) (s : DS),
      Frame s (readArrayElements ai n i elements s).2 := by
  induction n with
  | zero => intro i elements s; exact Frame.refl s
  | succ n ih =>
    intro i elements s
    unfold readArrayElements
    exact Frame.trans (auxFrameReadValue s (.arrayC ai) i) (ih _ _ _)

theorem auxFrameDeserializeArraysLoop (fuel : Nat) :
    ∀ s : DS, Frame s (deserializeArraysLoop fuel s) := by
  induction fuel with
  | zero => intro s; exact Frame.refl s
  | succ fuel ih =>
    intro s
    unfold deserializeArraysLoop
    split
    · match hu : readUint32 s with
      | none => exact auxFrameThrow s _
      | some (length, s1) =>
        have hf := auxFrameReadUint32 s length s1 hu
        refine Frame.trans hf ?_
        dsimp only
        split
        · exact auxFrameThrow s1 _
        · match he : readArrayElements s1.currentArrayCount length 0 [] s1 with
          | (elements, s2) =>
            have hf2 : Frame s1 s2 := by
              have := auxFrameReadArrayElements s1.currentArrayCount length 0 [] s1
              rw [he] at this
              exact this
            dsimp only
            refine Frame.trans hf2 ?_
            refine Frame.trans
              (auxFrameSetArray s2 s2.currentArrayCount ⟨elements⟩) ?_
            exact Frame.trans (⟨rfl, rfl, rfl, rfl⟩ : Frame _ _) (ih _)
    · exact Frame.refl s

theorem auxFrameDeserializeArrays (s : DS) : Frame s (deserializeArrays s) := by
  unfold deserializeArrays
  match hu : readUint32 s with
  | none => exact auxFrameThrow s _
  | some (count, s1) =>
    have hf := auxFrameReadUint32 s count s1 hu
    refine Frame.trans hf ?_
    dsimp only
    split
    · exact auxFrameThrow _ _
    · exact Frame.trans (⟨rfl, rfl, rfl, rfl⟩ : Frame _ _)
        (auxFrameDeserializeArraysLoop count _)

theorem auxFrameReadObjectProperties (oi : Nat) (n : Nat) :
    ∀ (i : Nat) (properties : List Val) (s : DS),
      Frame s (readObjectProperties oi n i properties s).2 := by
  induction n with
  | zero => intro i properties s; exact Frame.refl s
  | succ n ih =>
    intro i properties s
    unfold readObjectProperties
    exact Frame.trans (auxFrameReadValue s (.objectC oi) i) (ih _ _ _)

theorem auxFrameDeserializeObjectsLoop (fuel : Nat) :
    ∀ s : DS, Frame s (deserializeObjectsLoop fuel s) := by
  induction fuel with
  | zero => intro s; exact Frame.refl s
  | succ fuel ih =>
    intro s
    unfold deserializeObjectsLoop
    split
    · match hu : readUint32 s with
      | none => exact auxFrameThrow s _
      | some (mapId, s1) =>
        have hf := auxFrameReadUint32 s mapId s1 hu
        refine Frame.trans hf ?_
        dsimp only
        split
        · exact auxFrameThrow s1 _
        · match hm : s1.getMap mapId with
          | (none, s2) =>
            have hf2 : Frame s1 s2 := by
              have := auxFrameGetMap s1 mapId
              rw [hm] at this
              exact this
            refine Frame.trans hf2 ?_
            refine Frame.trans (⟨rfl, rfl, rfl, rfl⟩ :
              Frame s2 { s2 with confusion := true }) ?_
            dsimp only
            match hp : readObjectProperties s2.currentObjectCount 0 0 []
                { s2 with confusion := true } with
            | (properties, s3) =>
              have hf3 : Frame { s2 with confusion := true } s3 := by
                have := auxFrameReadObjectProperties s2.currentObjectCount 0 0 []
                  { s2 with confusion := true }
                rw [hp] at this
                exact this
              dsimp only
              refine Frame.trans hf3 ?_
              refine Frame.trans
                (auxFrameSetObject s3 s3.currentObjectCount ⟨mapId, properties⟩) ?_
              exact Frame.trans (⟨rfl, rfl, rfl, rfl⟩ : Frame _ _) (ih _)
          | (some shape, s2) =>
            have hf2 : Frame s1 s2 := by
              have := auxFrameGetMap s1 mapId
              rw [hm] at this
              exact this
            refine Frame.trans hf2 ?_
            dsimp only
            match hp : readObjectProperties s2.currentObjectCount
                shape.keys.length 0 [] s2 with
            | (properties, s3) =>
              have hf3 : Frame s2 s3 := by
                have := auxFrameReadObjectProperties s2.currentObjectCount
                  shape.keys.length 0 [] s2
                rw [hp] at this
                exact this
              dsimp only
              refine Frame.trans hf3 ?_
              refine Frame.trans
                (auxFrameSetObject s3 s3.currentObjectCount ⟨mapId, properties⟩) ?_
              exact Frame.trans (⟨rfl, rfl, rfl, rfl⟩ : Frame _ _) (ih _)
    · exact Frame.refl s

theorem auxFrameDeserializeObjects (s : DS) : Frame s (deserializeObjects s) := by
  unfold deserializeObjects
  match hu : readUint32 s with
  | none => exact auxFrameThrow s _
  | some (count, s1) =>
    have hf := auxFrameReadUint32 s count s1 hu
    refine Frame.trans hf ?_
    dsimp only
    split
    · exact auxFrameThrow _ _
    · exact Frame.trans (⟨rfl, rfl, rfl, rfl⟩ : Frame _ _)
        (auxFrameDeserializeObjectsLoop count _)

theorem auxFrameResolveDeferredTarget (s : DS) (d : Deferred) :
    Frame s (resolveDeferredTarget s d).2.1 := by
  unfold resolveDeferredTarget
  match d.targetType with
  | .FUNCTION_ID =>
    dsimp only
    split
    · exact Frame.refl s
    · exact auxFrameGetFunction s _
  | .CLASS_ID =>
    dsimp only
    split
    · exact Frame.refl s
    · exact auxFrameGetClass s _
  | .ARRAY_ID =>
    dsimp only
    split
    · exact Frame.refl s
    · exact auxFrameGetArray s _
  | .OBJECT_ID =>
    dsimp only
    split
    · exact Frame.refl s
    · exact auxFrameGetObject s _
  | .UNDEFINED_CONSTANT => exact ⟨rfl, rfl, rfl, rfl⟩
  | .NULL_CONSTANT => exact ⟨rfl, rfl, rfl, rfl⟩
  | .TRUE_CONSTANT => exact ⟨rfl, rfl, rfl, rfl⟩
  | .FALSE_CONSTANT => exact ⟨rfl, rfl, rfl, rfl⟩
  | .INTEGER => exact ⟨rfl, rfl, rfl, rfl⟩
  | .DOUBLE => exact ⟨rfl, rfl, rfl, rfl⟩
  | .STRING_ID => exact ⟨rfl, rfl, rfl, rfl⟩
  | .REGEXP => exact ⟨rfl, rfl, rfl, rfl⟩

theorem auxFrameApplyDeferredWrite (s1 : DS) (d : Deferred) (target : Val) :
    Frame s1 (applyDeferredWrite s1 d target).1 := by
  unfold applyDeferredWrite
  match hc : d.container with
  | .objectC k =>
    dsimp only
    match hg : s1.getObject k with
    | (some obj, s2) =>
      have hf : Frame s1 s2 := by
        have := auxFrameGetObject s1 k
        rw [hg] at this
        exact this
      exact Frame.trans hf (auxFrameSetObject s2 k _)
    | (none, s2) =>
      have hf : Frame s1 s2 := by
        have := auxFrameGetObject s1 k
        rw [hg] at this
        exact this
      exact Frame.trans hf ⟨rfl, rfl, rfl, rfl⟩
  | .contextC k =>
    dsimp only
    match hg : s1.getContext k with
    | (some ctx, s2) =>
      have hf : Frame s1 s2 := by
        have := auxFrameGetContext s1 k
        rw [hg] at this
        exact this
      exact Frame.trans hf (auxFrameSetContext s2 k _)
    | (none, s2) =>
      have hf : Frame s1 s2 := by
        have := auxFrameGetContext s1 k
        rw [hg] at this
        exact this
      exact Frame.trans hf ⟨rfl, rfl, rfl, rfl⟩
  | .arrayC k =>
    dsimp only
    match hg : s1.getArray k with
    | (some arr, s2) =>
      have hf : Frame s1 s2 := by
        have := auxFrameGetArray s1 k
        rw [hg] at this
        exact this
      exact Frame.trans hf (auxFrameSetArray s2 k _)
    | (none, s2) =>
      have hf : Frame s1 s2 := by
        have := auxFrameGetArray s1 k
        rw [hg] at this
        exact this
      exact Frame.trans hf ⟨rfl, rfl, rfl, rfl⟩
  | .functionC k =>
    dsimp only
    match target with
    | .objRef t =>
      dsimp only
      match hs : setFunctionPrototype s1 (.functionC k) t with
      | (true, s2) =>
        have hf : Frame s1 s2 := by
          have := auxFrameSetFunctionPrototype s1 (.functionC k) t
          rw [hs] at this
          exact this
        exact hf
      | (false, s2) =>
        have hf : Frame s1 s2 := by
          have := auxFrameSetFunctionPrototype s1 (.functionC k) t
          rw [hs] at this
          exact this
        exact Frame.trans hf (auxFrameThrow s2 _)
    | .falseC => exact ⟨rfl, rfl, rfl, rfl⟩
    | .trueC => exact ⟨rfl, rfl, rfl, rfl⟩
    | .nullC => exact ⟨rfl, rfl, rfl, rfl⟩
    | .undef => exact ⟨rfl, rfl, rfl, rfl⟩
    | .int _ => exact ⟨rfl, rfl, rfl, rfl⟩
    | .double _ => exact ⟨rfl, rfl, rfl, rfl⟩
    | .str _ => exact ⟨rfl, rfl, rfl, rfl⟩
    | .arrRef _ => exact ⟨rfl, rfl, rfl, rfl⟩
    | .funcRef _ => exact ⟨rfl, rfl, rfl, rfl⟩
    | .classRef _ => exact ⟨rfl, rfl, rfl, rfl⟩
    | .regexp _ _ => exact ⟨rfl, rfl, rfl, rfl⟩
  | .classC k =>
    dsimp only
    match target with
    | .objRef t =>
      dsimp only
      match hs : setFunctionPrototype s1 (.classC k) t with
      | (true, s2) =>
        have hf : Frame s1 s2 := by
          have := auxFrameSetFunctionPrototype s1 (.classC k) t
          rw [hs] at this
          exact this
        exact hf
      | (false, s2) =>
        have hf : Frame s1 s2 := by
          have := auxFrameSetFunctionPrototype s1 (.classC k) t
          rw [hs] at this
          exact this
        exact Frame.trans hf (auxFrameThrow s2 _)
    | .falseC => exact ⟨rfl, rfl, rfl, rfl⟩
    | .trueC => exact ⟨rfl, rfl, rfl, rfl⟩
    | .nullC => exact ⟨rfl, rfl, rfl, rfl⟩
    | .undef => exact ⟨rfl, rfl, rfl, rfl⟩
    | .int _ => exact ⟨rfl, rfl, rfl, rfl⟩
    | .double _ => exact ⟨rfl, rfl, rfl, rfl⟩
    | .str _ => exact ⟨rfl, rfl, rfl, rfl⟩
    | .arrRef _ => exact ⟨rfl, rfl, rfl, rfl⟩
    | .funcRef _ => exact ⟨rfl, rfl, rfl, rfl⟩
    | .classRef _ => exact ⟨rfl, rfl, rfl, rfl⟩
    | .regexp _ _ => exact ⟨rfl, rfl, rfl, rfl⟩
  | .mapC k =>
    dsimp only
    match hg : s1.getMap k with
    | (some shape, s2) =>
      have hf : Frame s1 s2 := by
        have := auxFrameGetMap s1 k
        rw [hg] at this
        exact this
      exact Frame.trans hf (auxFrameSetMap s2 k _)
    | (none, s2) =>
      have hf : Frame s1 s2 := by
        have := auxFrameGetMap s1 k
        rw [hg] at this
        exact this
      exact Frame.trans hf ⟨rfl, rfl, rfl, rfl⟩
  | .nullRef =>
    dsimp only
    exact ⟨rfl, rfl, rfl, rfl⟩

theorem auxFrameProcessDeferredStep (s : DS) (d : Deferred) :
    Frame s (processDeferredStep s d).1 := by
  unfold processDeferredStep
  match hr : resolveDeferredTarget s d with
  | (none, s1, message) =>
    have hf : Frame s s1 := by
      have := auxFrameResolveDeferredTarget s d
      rw [hr] at this
      exact this
    exact Frame.trans hf (auxFrameThrow s1 _)
  | (some target, s1, msg) =>
    have hf : Frame s s1 := by
      have := auxFrameResolveDeferredTarget s d
      rw [hr] at this
      exact this
    exact Frame.trans hf (auxFrameApplyDeferredWrite s1 d target)

theorem auxFrameProcessDeferredLoop (l : List Deferred) :
    ∀ s : DS, Frame s (processDeferredLoop l s) := by
  induction l with
  | nil => intro s; exact ⟨rfl, rfl, rfl, rfl⟩
  | cons d rest ih =>
    intro s
    unfold processDeferredLoop
    match hp : processDeferredStep s d with
    | (s1, true) =>
      have hf : Frame s s1 := by
        have := auxFrameProcessDeferredStep s d
        rw [hp] at this
        exact this
      exact hf
    | (s1, false) =>
      have hf : Frame s s1 := by
        have := auxFrameProcessDeferredStep s d
        rw [hp] at this
        exact this
      exact Frame.trans hf (ih s1)

theorem auxFrameProcessDeferredReferences (s : DS) :
    Frame s (processDeferredReferences s) := by
  unfold processDeferredReferences
  split
  · exact Frame.refl s
  · exact auxFrameProcessDeferredLoop s.deferredReferences s

/-! ### Sticky-error lemmas

The first recorded error is never cleared: `Throw` keeps an existing
message, the byte readers and table accessors never touch
`error_message_`. -/

theorem auxThrowHasError (s : DS) (m : String) :
    (s.throw m).errorMessage.isSome = true := by
  unfold DS.throw
  split
  · assumption
  · rfl

theorem auxErrReadByte (s : DS) (n : Nat) (t : DS) (h : readByte s = some (n, t)) :
    t.errorMessage = s.errorMessage := by
  unfold readByte at h
  split at h
  · simp only [Option.some.injEq, Prod.mk.injEq] at h
    rw [← h.2]
  · cases h

theorem auxErrReadUint32 (s : DS) (n : Nat) (t : DS)
    (h : readUint32 s = some (n, t)) : t.errorMessage = s.errorMessage := by
  unfold readUint32 at h
  split at h
  · simp only [Option.some.injEq, Prod.mk.injEq] at h
    rw [← h.2]
  · cases h

theorem auxErrReadRawBytes (s : DS) (n : Nat) (bs : List Nat) (t : DS)
    (h : readRawBytes s n = some (bs, t)) : t.errorMessage = s.errorMessage := by
  unfold readRawBytes at h
  split at h
  · simp only [Option.some.injEq, Prod.mk.injEq] at h
    rw [← h.2]
  · cases h

theorem auxErrReadVarintAux (fuel : Nat) :
    ∀ (shift acc : Nat) (s : DS) (n : Nat) (t : DS),
      readVarintAux fuel shift acc s = some (n, t) →
      t.errorMessage = s.errorMessage := by
  induction fuel with
  | zero => intro _ _ _ _ _ h; cases h
  | succ fuel ih =>
    intro shift acc s n t h
    unfold readVarintAux at h
    match hb : readByte s with
    | none => rw [hb] at h; cases h
    | some (b, s1) =>
      rw [hb] at h
      simp only at h
      have he1 := auxErrReadByte s b s1 hb
      split at h
      · simp only [Option.some.injEq, Prod.mk.injEq] at h
        rw [← h.2]
        exact he1
      · rw [ih _ _ _ _ _ h]
        exact he1

theorem auxErrReadZigZag (s : DS) (n : Int) (t : DS)
    (h : readZigZag s = some (n, t)) : t.errorMessage = s.errorMessage := by
  unfold readZigZag at h
  match hv : readVarintAux 5 0 0 s with
  | none => rw [hv] at h; cases h
  | some (z, s1) =>
    rw [hv] at h
    have he := auxErrReadVarintAux 5 0 0 s z s1 hv
    simp only [Option.some.injEq] at h
    split at h <;>
      (rw [Prod.mk.injEq] at h; rw [← h.2]; exact he)

theorem auxErrReadDouble (s : DS) (bs : List Nat) (t : DS)
    (h : readDouble s = some (bs, t)) : t.errorMessage = s.errorMessage :=
  auxErrReadRawBytes s 8 bs t h

theorem auxErrReadUtf8String (s : DS) (str : Str) (t : DS)
    (h : readUtf8String s = some (str, t)) : t.errorMessage = s.errorMessage := by
  unfold readUtf8String at h
  match hu : readUint32 s with
  | none => rw [hu] at h; cases h
  | some (len, s1) =>
    rw [hu] at h
    rw [auxErrReadRawBytes s1 len str t h]
    exact auxErrReadUint32 s len s1 hu

theorem auxErrGetString (s : DS) (i : Nat) :
    ((s.getString i).2).errorMessage = s.errorMessage := by
  unfold DS.getString
  split <;> rfl

theorem auxErrGetMap (s : DS) (i : Nat) :
    ((s.getMap i).2).errorMessage = s.errorMessage := by
  unfold DS.getMap
  split <;> rfl

theorem auxErrGetContext (s : DS) (i : Nat) :
    ((s.getContext i).2).errorMessage = s.errorMessage := by
  unfold DS.getContext
  split <;> rfl

theorem auxErrGetFunction (s : DS) (i : Nat) :
    ((s.getFunction i).2).errorMessage = s.errorMessage := by
  unfold DS.getFunction
  split <;> rfl

theorem auxErrGetClass (s : DS) (i : Nat) :
    ((s.getClass i).2).errorMessage = s.errorMessage := by
  unfold DS.getClass
  split <;> rfl

theorem auxErrGetArray (s : DS) (i : Nat) :
    ((s.getArray i).2).errorMessage = s.errorMessage := by
  unfold DS.getArray
  split <;> rfl

theorem auxErrGetObject (s : DS) (i : Nat) :
    ((s.getObject i).2).errorMessage = s.errorMessage := by
  unfold DS.getObject
  split <;> rfl

theorem auxErrStickyReadString (s : DS) (b : Bool)
    (h : s.errorMessage.isSome = true) :
    ((s.readString b).2).errorMessage.isSome = true := by
  unfold DS.readString
  match hu : readUint32 s with
  | none => exact auxThrowHasError s _
  | some (stringId, s1) =>
    have hmsg := auxErrReadUint32 s stringId s1 hu
    dsimp only
    split
    · exact auxThrowHasError s1 _
    · rw [auxErrGetString s1 stringId, hmsg]
      exact h

theorem auxErrStickyAddDeferredReference (s : DS) (c : ContainerRef) (i : Nat)
    (tt : ValueType) (ti : Nat) (h : s.errorMessage.isSome = true) :
    ((s.addDeferredReference c i tt ti).2).errorMessage.isSome = true := by
  unfold DS.addDeferredReference
  match c with
  | .nullRef => exact auxThrowHasError s _
  | .mapC k => exact h
  | .contextC k => exact h
  | .functionC k => exact h
  | .classC k => exact h
  | .arrayC k => exact h
  | .objectC k => exact h

theorem auxErrStickyReadValue (s : DS) (c : ContainerRef) (i : Nat)
    (h : s.errorMessage.isSome = true) :
    ((s.readValue c i).2).errorMessage.isSome = true := by
  unfold DS.readValue
  match hu : readUint32 s with
  | none => exact auxThrowHasError s _
  | some (tag, s1) =>
    have h1 : s1.errorMessage.isSome = true := by
      rw [auxErrReadUint32 s tag s1 hu]
      exact h
    match tag with
    | 3 => exact h1
    | 2 => exact h1
    | 1 => exact h1
    | 0 => exact h1
    | 4 =>
      dsimp only
      match hz : readZigZag s1 with
      | none => exact auxThrowHasError s1 _
      | some (z, s2) =>
        rw [auxErrReadZigZag s1 z s2 hz]
        exact h1
    | 5 =>
      dsimp only
      match hd : readDouble s1 with
      | none => exact auxThrowHasError s1 _
      | some (bs, s2) =>
        rw [auxErrReadDouble s1 bs s2 hd]
        exact h1
    | 6 => exact auxErrStickyReadString s1 false h1
    | 7 =>
      dsimp only
      match hu2 : readUint32 s1 with
      | none => exact auxThrowHasError s1 _
      | some (arrayId, s2) =>
        have h2 : s2.errorMessage.isSome = true := by
          rw [auxErrReadUint32 s1 arrayId s2 hu2]
          exact h1
        dsimp only
        split
        · exact auxThrowHasError s2 _
        · split
          · rw [auxErrGetArray s2 arrayId]; exact h2
          · exact auxErrStickyAddDeferredReference s2 c i .ARRAY_ID arrayId h2
    | 8 =>
      dsimp only
      match hu2 : readUint32 s1 with
      | none => exact auxThrowHasError s1 _
      | some (objectId, s2) =>
        have h2 : s2.errorMessage.isSome = true := by
          rw [auxErrReadUint32 s1 objectId s2 hu2]
          exact h1
        dsimp only
        split
        · exact auxThrowHasError s2 _
        · split
          · rw [auxErrGetObject s2 objectId]; exact h2
          · exact auxErrStickyAddDeferredReference s2 c i .OBJECT_ID objectId h2
    | 9 =>
      dsimp only
      match hu2 : readUint32 s1 with
      | none => exact auxThrowHasError s1 _
      | some (functionId, s2) =>
        have h2 : s2.errorMessage.isSome = true := by
          rw [auxErrReadUint32 s1 functionId s2 hu2]
          exact h1
        dsimp only
        split
        · exact auxThrowHasError s2 _
        · split
          · rw [auxErrGetFunction s2 functionId]; exact h2
          · exact auxErrStickyAddDeferredReference s2 c i .FUNCTION_ID functionId h2
    | 10 =>
      dsimp only
      match hu2 : readUint32 s1 with
      | none => exact auxThrowHasError s1 _
      | some (classId, s2) =>
        have h2 : s2.errorMessage.isSome = true := by
          rw [auxErrReadUint32 s1 classId s2 hu2]
          exact h1
        dsimp only
        split
        · exact auxThrowHasError s2 _
        · split
          · rw [auxErrGetClass s2 classId]; exact h2
          · exact auxErrStickyAddDeferredReference s2 c i .CLASS_ID classId h2
    | 11 =>
      dsimp only
      refine auxErrStickyReadString _ false ?_
      exact auxErrStickyReadString s1 false h1
    | (n + 12) => exact auxThrowHasError s1 _

/-! ### Export-installer lemmas (C1) -/

theorem auxExportsLoopEvents (n : Nat) :
    ∀ (dict : List (Str × Val)) (s : DS),
      ∃ T, (deserializeExportsLoop n dict s).events = s.events ++ T := by
  induction n with
  | zero =>
    intro dict s
    exact ⟨[Ev.installedDictionary], rfl⟩
  | succ n ih =>
    intro dict s
    unfold deserializeExportsLoop
    dsimp only
    have hev1 := (auxFrameReadString s true).2.1
    have hev2 := (auxFrameReadValue (s.readString true).2 ContainerRef.nullRef 0).2.1
    split
    · refine ⟨[Ev.decodedExport (s.readString true).1
        (((s.readString true).2).readValue ContainerRef.nullRef 0).1], ?_⟩
      show (((s.readString true).2).readValue ContainerRef.nullRef 0).2.events ++ _ = _
      rw [hev2, hev1]
    · obtain ⟨T, hT⟩ := ih (dict ++ [((s.readString true).1,
        (((s.readString true).2).readValue ContainerRef.nullRef 0).1)])
        { (((s.readString true).2).readValue ContainerRef.nullRef 0).2 with
          events := ((((s.readString true).2).readValue ContainerRef.nullRef 0).2).events ++
            [Ev.decodedExport (s.readString true).1
              (((s.readString true).2).readValue ContainerRef.nullRef 0).1] ++
            [Ev.addedBinding (s.readString true).1] }
      refine ⟨[Ev.decodedExport (s.readString true).1
          (((s.readString true).2).readValue ContainerRef.nullRef 0).1,
        Ev.addedBinding (s.readString true).1] ++ T, ?_⟩
      rw [hT]
      show ((((s.readString true).2).readValue ContainerRef.nullRef 0).2.events ++ _ ++ _) ++ T = _
      rw [hev2, hev1]
      simp [List.append_assoc]

theorem auxExportsLoopErrKept (n : Nat) :
    ∀ (dict : List (Str × Val)) (s : DS), s.errorMessage.isSome = true →
      dict = s.global →
      ((deserializeExportsLoop n dict s).errorMessage.isSome = true ∧
       (deserializeExportsLoop n dict s).global = s.global) := by
  induction n with
  | zero =>
    intro dict s h hd
    exact ⟨h, hd⟩
  | succ n ih =>
    intro dict s h hd
    unfold deserializeExportsLoop
    dsimp only
    have hst1 := auxErrStickyReadString s true h
    have hst2 := auxErrStickyReadValue (s.readString true).2 ContainerRef.nullRef 0 hst1
    have hg1 := (auxFrameReadString s true).1
    have hg2 := (auxFrameReadValue (s.readString true).2 ContainerRef.nullRef 0).1
    split
    · refine ⟨hst2, ?_⟩
      show (((s.readString true).2).readValue ContainerRef.nullRef 0).2.global = s.global
      rw [hg2, hg1]
    · rename_i hfalse
      exact absurd hst2 (by simpa [DS.hasError] using hfalse)

theorem auxExportsLoopNoErrGlobal (n : Nat) :
    ∀ (dict : List (Str × Val)) (s : DS), s.errorMessage.isSome = false →
      ((deserializeExportsLoop n dict s).errorMessage ≠ none →
        (deserializeExportsLoop n dict s).global = s.global) ∧
      ((deserializeExportsLoop n dict s).errorMessage = none →
        ∃ tail, (deserializeExportsLoop n dict s).global = dict ++ tail) := by
  induction n with
  | zero =>
    intro dict s h
    constructor
    · intro hne
      exact absurd (by simpa [Option.isSome_iff_ne_none] using h) (fun hx => hne hx)
    · intro _
      exact ⟨[], (List.append_nil dict).symm⟩
  | succ n ih =>
    intro dict s h
    unfold deserializeExportsLoop
    dsimp only
    have hg1 := (auxFrameReadString s true).1
    have hg2 := (auxFrameReadValue (s.readString true).2 ContainerRef.nullRef 0).1
    split
    · constructor
      · intro _
        show (((s.readString true).2).readValue ContainerRef.nullRef 0).2.global = s.global
        rw [hg2, hg1]
      · intro hnone
        rename_i htrue
        exfalso
        have : (((s.readString true).2).readValue ContainerRef.nullRef 0).2.errorMessage.isSome = true := by
          simpa [DS.hasError] using htrue
        rw [hnone] at this
        cases this
    · rename_i hfalse
      have hne : (((s.readString true).2).readValue ContainerRef.nullRef 0).2.errorMessage.isSome = false := by
        simpa [DS.hasError] using hfalse
      have := ih (dict ++ [((s.readString true).1,
          (((s.readString true).2).readValue ContainerRef.nullRef 0).1)])
        { (((s.readString true).2).readValue ContainerRef.nullRef 0).2 with
          events := ((((s.readString true).2).readValue ContainerRef.nullRef 0).2).events ++
            [Ev.decodedExport (s.readString true).1
              (((s.readString true).2).readValue ContainerRef.nullRef 0).1] ++
            [Ev.addedBinding (s.readString true).1] }
        (by simpa using hne)
      constructor
      · intro hne2
        rw [(this.1 hne2)]
        show (((s.readString true).2).readValue ContainerRef.nullRef 0).2.global = s.global
        rw [hg2, hg1]
      · intro hnone
        obtain ⟨tail, htail⟩ := this.2 hnone
        exact ⟨[((s.readString true).1,
          (((s.readString true).2).readValue ContainerRef.nullRef 0).1)] ++ tail,
          by rw [htail]; simp [List.append_assoc]⟩

theorem auxDeserializeExportsGlobal (s : DS) :
    ((deserializeExports s).errorMessage ≠ none →
      (deserializeExports s).global = s.global) ∧
    ((deserializeExports s).errorMessage = none →
      ∃ tail, (deserializeExports s).global = s.global ++ tail) ∧
    ((deserializeExports s).events = s.events ∨
      ∃ c T, (deserializeExports s).events = s.events ++ (Ev.reserveCapacity c :: T)) := by
  unfold deserializeExports
  match hu : readUint32 s with
  | none =>
    refine ⟨fun _ => (auxFrameThrow s _).1, fun hnone => ?_, Or.inl (auxFrameThrow s _).2.1⟩
    exfalso
    have := auxThrowHasError s "Malformed export table"
    rw [hnone] at this
    cases this
  | some (count, s1) =>
    have hfr := auxFrameReadUint32 s count s1 hu
    have herr1 := auxErrReadUint32 s count s1 hu
    dsimp only
    split
    · refine ⟨fun _ => ?_, fun hnone => ?_, Or.inl ?_⟩
      · rw [(auxFrameThrow s1 _).1, hfr.1]
      · exfalso
        have := auxThrowHasError s1 "Malformed export table"
        rw [hnone] at this
        cases this
      · rw [(auxFrameThrow s1 _).2.1, hfr.2.1]
    · set s2 : DS := { s1 with events := s1.events ++ [Ev.reserveCapacity count] } with hs2
      have hg2 : s2.global = s.global := by rw [show s2.global = s1.global from rfl, hfr.1]
      have he2 : s2.errorMessage = s.errorMessage := by
        rw [show s2.errorMessage = s1.errorMessage from rfl, herr1]
      by_cases herr : s2.errorMessage.isSome = true
      · obtain ⟨hkeep, hglob⟩ := auxExportsLoopErrKept count s2.global s2 herr rfl
        refine ⟨fun _ => ?_, fun hnone => ?_, ?_⟩
        · rw [hglob, hg2]
        · exfalso
          rw [hnone] at hkeep
          cases hkeep
        · obtain ⟨T, hT⟩ := auxExportsLoopEvents count s2.global s2
          right
          refine ⟨count, T, ?_⟩
          rw [hT]
          have hevs : s2.events = s.events ++ [Ev.reserveCapacity count] := by
            show s1.events ++ [Ev.reserveCapacity count] = _
            rw [hfr.2.1]
          rw [hevs, List.append_assoc]
          rfl
      · have hne : s2.errorMessage.isSome = false := by
          cases hx : s2.errorMessage.isSome
          · rfl
          · exact absurd hx herr
        obtain ⟨h1, h2⟩ := auxExportsLoopNoErrGlobal count s2.global s2 hne
        refine ⟨fun hne2 => ?_, fun hnone => ?_, ?_⟩
        · rw [h1 hne2, hg2]
        · obtain ⟨tail, htail⟩ := h2 hnone
          exact ⟨tail, by rw [htail, hg2]⟩
        · obtain ⟨T, hT⟩ := auxExportsLoopEvents count s2.global s2
          right
          refine ⟨count, T, ?_⟩
          rw [hT]
          have hevs : s2.events = s.events ++ [Ev.reserveCapacity count] := by
            show s1.events ++ [Ev.reserveCapacity count] = _
            rw [hfr.2.1]
          rw [hevs, List.append_assoc]
          rfl

theorem auxFrameStages (s : DS) :
    Frame s (processDeferredReferences (deserializeClasses (deserializeObjects
      (deserializeArrays (deserializeFunctions (deserializeContexts
      (deserializeMaps (deserializeStrings s)))))))) :=
  Frame.trans (auxFrameDeserializeStrings s)
    (Frame.trans (auxFrameDeserializeMaps _)
      (Frame.trans (auxFrameDeserializeContexts _)
        (Frame.trans (auxFrameDeserializeFunctions _)
          (Frame.trans (auxFrameDeserializeArrays _)
            (Frame.trans (auxFrameDeserializeObjects _)
              (Frame.trans (auxFrameDeserializeClasses _)
                (auxFrameProcessDeferredReferences _)))))))

theorem auxC1core (G : List (Str × Val)) (s : DS) (hg : s.global = G)
    (hev : s.events = []) :
    ((Deserialize s).2.events ≠ [] →
      ∃ c T, (Deserialize s).2.events = Ev.reserveCapacity c :: T) ∧
    ((Deserialize s).2.errorMessage ≠ none → (Deserialize s).2.global = G) ∧
    ((Deserialize s).2.errorMessage = none →
      ∃ tail, (Deserialize s).2.global = G ++ tail) := by
  unfold Deserialize
  split
  · dsimp only
    refine ⟨fun hne => ?_, fun _ => ?_, fun hnone => ?_⟩
    · exfalso
      apply hne
      rw [(auxFrameThrow s _).2.1, hev]
    · rw [(auxFrameThrow s _).1, hg]
    · exfalso
      have := auxThrowHasError s "Can't reuse WebSnapshotDeserializer"
      rw [hnone] at this
      cases this
  · dsimp only
    unfold deserializeSnapshot
    set s0 : DS := { s with deserialized := true, deferredReferences := [] } with hs0
    have hg0 : s0.global = G := hg
    have hev0 : s0.events = [] := hev
    rcases hb : readRawBytes s0 4 with _ | ⟨magicBytes, sa⟩
    · dsimp only
      rw [hb]
      dsimp only
      refine ⟨fun hne => ?_, fun _ => ?_, fun hnone => ?_⟩
      · exfalso
        apply hne
        rw [(auxFrameThrow s0 _).2.1, hev0]
      · rw [(auxFrameThrow s0 _).1, hg0]
      · exfalso
        have := auxThrowHasError s0 "Invalid magic number"
        rw [hnone] at this
        cases this
    · have hfa : Frame s0 sa := auxFrameReadRawBytes s0 4 magicBytes sa hb
      dsimp only
      rw [hb]
      dsimp only
      split
      · refine ⟨fun hne => ?_, fun _ => ?_, fun hnone => ?_⟩
        · exfalso
          apply hne
          rw [(auxFrameThrow sa _).2.1, hfa.2.1, hev0]
        · rw [(auxFrameThrow sa _).1, hfa.1, hg0]
        · exfalso
          have := auxThrowHasError sa "Invalid magic number"
          rw [hnone] at this
          cases this
      · have hfr : Frame sa (processDeferredReferences (deserializeClasses
            (deserializeObjects (deserializeArrays (deserializeFunctions
            (deserializeContexts (deserializeMaps (deserializeStrings sa)))))))) :=
          auxFrameStages sa
        set s9 : DS := processDeferredReferences (deserializeClasses
          (deserializeObjects (deserializeArrays (deserializeFunctions
          (deserializeContexts (deserializeMaps (deserializeStrings sa))))))) with hs9
        have hg9 : s9.global = G := by rw [hfr.1, hfa.1, hg0]
        have hev9 : s9.events = [] := by rw [hfr.2.1, hfa.2.1, hev0]
        obtain ⟨hx1, hx2, hx3⟩ := auxDeserializeExportsGlobal s9
        refine ⟨fun hne => ?_, fun hne => ?_, fun hnone => ?_⟩
        · rcases hx3 with hsame | ⟨c, T, hT⟩
          · exfalso
            apply hne
            show (deserializeExports s9).events = []
            rw [hsame, hev9]
          · refine ⟨c, T, ?_⟩
            show (deserializeExports s9).events = _
            rw [hT, hev9]
            rfl
        · have := hx1 hne
          show (deserializeExports s9).global = G
          rw [this, hg9]
        · obtain ⟨tail, htail⟩ := hx2 hnone
          refine ⟨tail, ?_⟩
          show (deserializeExports s9).global = G ++ tail
          rw [htail, hg9]

/-- A complete valid snapshot: one string "a", all other tables empty
except one export binding the name "a" (string 0) to the integer 1. -/
def exportFixtureBuffer : List Nat :=
  kMagicNumber ++ writeUint32Bytes 1 ++ writeStringRecord [97] ++
  writeUint32Bytes 0 ++ writeUint32Bytes 0 ++ writeUint32Bytes 0 ++
  writeUint32Bytes 0 ++ writeUint32Bytes 0 ++ writeUint32Bytes 0 ++
  writeUint32Bytes 1 ++ writeUint32Bytes 0 ++ writeUint32Bytes 4 ++
  writeZigZagBytes 1

/-- C1 counterexample: on a snapshot with a single well-formed export,
`DeserializeExports` emits `reserveCapacity` (the
`GlobalDictionary::EnsureCapacity` call) as its FIRST action, before
decoding any export's (name, value) pair, and then alternates decoding
and inserting.  This refutes "decodes every export's (name, value) pair
before reserving capacity in the global namespace and before inserting
any binding": the reserve precedes every decode, and decode/insert are
interleaved per export rather than decode-all-then-install-all. -/
theorem c1_reserve_before_decode_counterexample :
    (Deserialize (DS.init [] exportFixtureBuffer)).2.errorMessage = none ∧
    (Deserialize (DS.init [] exportFixtureBuffer)).2.events =
      [Ev.reserveCapacity 1, Ev.decodedExport [97] (Val.int 1),
       Ev.addedBinding [97], Ev.installedDictionary] := by
  decide

/-- C1 (amended): the export installer reserves namespace capacity
immediately after reading the export count — before decoding any
export — and then decodes and stages each (name, value) binding
interleaved, checking the sticky error after each decoded pair and
before staging it.  The staged dictionary is installed into the global
object only after every export decoded cleanly, so if `Deserialize`
fails (returns with an error recorded), the global namespace is exactly
what it was before the call, and no export name from the snapshot is
visible; on success the namespace is the original plus the staged
bindings. -/
theorem c1_export_install_atomicity (g0 : List (Str × Val)) (data : List Nat) :
    ((Deserialize (DS.init g0 data)).2.events ≠ [] →
      ∃ c T, (Deserialize (DS.init g0 data)).2.events = Ev.reserveCapacity c :: T) ∧
    ((Deserialize (DS.init g0 data)).2.errorMessage ≠ none →
      (Deserialize (DS.init g0 data)).2.global = g0) ∧
    ((Deserialize (DS.init g0 data)).2.errorMessage = none →
      ∃ tail, (Deserialize (DS.init g0 data)).2.global = g0 ++ tail) :=
  auxC1core g0 (DS.init g0 data) rfl rfl

/-- Witness for `c1_export_install_atomicity` at the concrete one-export
snapshot: its run emits events, and the first is the capacity reserve. -/
theorem c1_export_install_atomicity_witness :
    ∃ c T, (Deserialize (DS.init [] exportFixtureBuffer)).2.events =
      Ev.reserveCapacity c :: T :=
  (c1_export_install_atomicity [] exportFixtureBuffer).1 (by decide)

/-! ### Count-ceiling and error-reset theorems (C3, C4, C5) -/

/-- A snapshot declaring empty string, shape, context and function
tables and then an array count one above the item ceiling, with no
further bytes. -/
def oversizedArrayCountBuffer : List Nat :=
  kMagicNumber ++ writeUint32Bytes 0 ++ writeUint32Bytes 0 ++
  writeUint32Bytes 0 ++ writeUint32Bytes 0 ++ writeUint32Bytes (kMaxItemCount + 1)

/-- C3: evaluating the decoder at the failing input.  A declared array
count of `kMaxItemCount + 1` is NOT rejected by `DeserializeArrays`'s
ceiling check — the source compares `object_count_` (still 0 at that
point) instead of the just-read `array_count_` — so the backing store
for the array table is allocated at the oversized count
(`arrays.length = kMaxItemCount + 1`), and the error eventually
recorded is the in-loop "Malformed array" (the buffer has no array
records), not the count-check's "Malformed array table". -/
theorem c3_array_ceiling_checks_object_count :
    (Deserialize (DS.init [] oversizedArrayCountBuffer)).2.arrayCount =
      kMaxItemCount + 1 ∧
    (Deserialize (DS.init [] oversizedArrayCountBuffer)).2.arrays.length =
      kMaxItemCount + 1 ∧
    (Deserialize (DS.init [] oversizedArrayCountBuffer)).2.errorMessage =
      some "Malformed array" := by
  decide

/-- C4 counterexample: a reachable deserializer state in which `Throw`
has recorded an error yet the array count is not zero — refuting "every
table count held by the deserializer (string, shape, context, function,
class, array, object) is set to zero". -/
theorem c4_array_count_not_zeroed_counterexample :
    (Deserialize (DS.init [] oversizedArrayCountBuffer)).2.errorMessage.isSome
      = true ∧
    (Deserialize (DS.init [] oversizedArrayCountBuffer)).2.arrayCount =
      kMaxItemCount + 1 := by
  decide

/-- C4 (amended): `WebSnapshotDeserializer::Throw` zeroes the string,
shape, context, function, class and object counts — but leaves
`array_count_` unchanged — clears the deferred references, moves the
read cursor to the end of the buffer, and leaves an error recorded.
Table-count-bounded loops still terminate immediately: because the
cursor is at the end, the next read of any decoding loop fails, as
illustrated by `DeserializeArrays` failing its very first read after a
`Throw`. -/
theorem c4_throw_resets_counts_and_cursor (s : DS) (m : String) :
    (s.throw m).stringCount = 0 ∧ (s.throw m).mapCount = 0 ∧
    (s.throw m).contextCount = 0 ∧ (s.throw m).functionCount = 0 ∧
    (s.throw m).classCount = 0 ∧ (s.throw m).objectCount = 0 ∧
    (s.throw m).arrayCount = s.arrayCount ∧
    (s.throw m).pos = s.data.length ∧
    (s.throw m).deferredReferences = [] ∧
    (s.throw m).errorMessage.isSome = true ∧
    deserializeArrays (s.throw m) = (s.throw m).throw "Malformed array table" := by
  have hpos : (s.throw m).pos = s.data.length := by
    unfold DS.throw
    split <;> rfl
  have hdata : (s.throw m).data = s.data := (auxFrameThrow s m).2.2.1
  have hread : readUint32 (s.throw m) = none := by
    unfold readUint32
    have hcond : ¬ ((s.throw m).pos + 4 ≤ (s.throw m).data.length) := by
      rw [hpos, hdata]
      omega
    rw [if_neg hcond]
  refine ⟨?_, ?_, ?_, ?_, ?_, ?_, ?_, hpos, ?_, auxThrowHasError s m, ?_⟩
  · unfold DS.throw; split <;> rfl
  · unfold DS.throw; split <;> rfl
  · unfold DS.throw; split <;> rfl
  · unfold DS.throw; split <;> rfl
  · unfold DS.throw; split <;> rfl
  · unfold DS.throw; split <;> rfl
  · unfold DS.throw; split <;> rfl
  · unfold DS.throw; split <;> rfl
  · unfold deserializeArrays
    rw [hread]

/-- A snapshot whose shape table declares two shapes, each a valid
empty-shape record (DEFAULT attribute mode, default prototype, zero
properties), followed by empty context, function, array, object, class
and export tables. -/
def twoEmptyShapesBuffer : List Nat :=
  kMagicNumber ++ writeUint32Bytes 0 ++ writeUint32Bytes 2 ++
  writeUint32Bytes 0 ++ writeUint32Bytes 0 ++ writeUint32Bytes 0 ++
  writeUint32Bytes 0 ++ writeUint32Bytes 0 ++ writeUint32Bytes 0 ++
  writeUint32Bytes 0 ++ writeUint32Bytes 0 ++ writeUint32Bytes 0 ++
  writeUint32Bytes 0 ++ writeUint32Bytes 0 ++ writeUint32Bytes 0

/-- C5: evaluating the decoder at the failing input.  After storing the
canonical empty shape for the zero-property shape 0, `DeserializeMaps`
RETURNS instead of continuing: shape 1's record is never read (its
table slot stays unset), the remaining twelve bytes of the stream are
consumed by the later table stages as if they were their own headers,
twelve bytes are left over, and the whole decode reports success. -/
theorem c5_zero_property_shape_abandons_table :
    (Deserialize (DS.init [] twoEmptyShapesBuffer)).1 = true ∧
    (Deserialize (DS.init [] twoEmptyShapesBuffer)).2.errorMessage = none ∧
    (Deserialize (DS.init [] twoEmptyShapesBuffer)).2.mapCount = 2 ∧
    (Deserialize (DS.init [] twoEmptyShapesBuffer)).2.maps.getD 0 none =
      some { isCanonicalEmpty := true, keys := [], attributes := [],
             protoDefault := true, proto := Val.undef, claimed := true } ∧
    (Deserialize (DS.init [] twoEmptyShapesBuffer)).2.maps.getD 1 none = none ∧
    (Deserialize (DS.init [] twoEmptyShapesBuffer)).2.pos + 12 =
      twoEmptyShapesBuffer.length := by
  decide

/-! ## Serializer (`WebSnapshotSerializer`)

The encode side is embedded over a model heap restricted to the value
fragment the remaining claims exercise: interned strings, plain objects
with shapes, Smis, and primitive wrappers (the C++ handles further
instance types; they do not occur in these claims' inputs).  Identity
is by heap id, mirroring the identity-keyed `ObjectCacheIndexMap`s. -/

/-- A shape (`Map`) in the model heap: property-name heap-string ids in
descriptor order with their details (read-only, configurable,
dont-enum), and the prototype (`protoDefault` = `Object.prototype`). -/
structure EncMapRec where
  keys : List Nat
  attrs : List (Bool × Bool × Bool)
  protoDefault : Bool
  protoObj : Nat
deriving DecidableEq, Repr

/-- A model heap value. -/
inductive EncVal where
  | smi (n : Int)
  | heapStr (i : Nat)
  | heapObj (i : Nat)
deriving DecidableEq, Repr

/-- A plain object in the model heap. -/
structure EncObjRec where
  mapId : Nat
  fields : List EncVal
deriving DecidableEq, Repr

/-- The model heap. -/
structure EncHeap where
  strings : List Str
  heapMaps : List EncMapRec
  heapObjs : List EncObjRec
deriving Repr

/-- The export object a root script evaluated to: either a
`JSPrimitiveWrapper` (whose wrapped primitive is serialized) or a plain
object. -/
inductive EncExportObj where
  | primitiveWrapper (v : EncVal)
  | plainObj (heapObjId : Nat)
deriving DecidableEq, Repr

/-- One export root: its name (a heap string) and its object. -/
structure EncExport where
  nameHeapStrId : Nat
  obj : EncExportObj
deriving DecidableEq, Repr

/-- `WebSnapshotSerializer`'s member state: the identity-keyed id maps
(`*_ids_`, as lists of heap ids in assigned-id order), the per-kind
byte buffers (`*_serializer_`), the discovery queue and the pending
`objects_` list. -/
structure SerState where
  errorMessage : Option String
  stringIds : List Nat
  mapIds : List Nat
  objectIds : List Nat
  contextIds : List Nat
  functionIds : List Nat
  classIds : List Nat
  arrayIds : List Nat
  stringSer : List Nat
  mapSer : List Nat
  contextSer : List Nat
  functionSer : List Nat
  classSer : List Nat
  arraySer : List Nat
  objectSer : List Nat
  exportSer : List Nat
  exportCount : Nat
  objectsList : List Nat
  queue : List EncVal
  idLookupFailed : Bool
deriving Repr

/-- A fresh serializer. -/
def SerState.init : SerState :=
  { errorMessage := none, stringIds := [], mapIds := [], objectIds := [],
    contextIds := [], functionIds := [], classIds := [], arrayIds := [],
    stringSer := [], mapSer := [], contextSer := [], functionSer := [],
    classSer := [], arraySer := [], objectSer := [], exportSer := [],
    exportCount := 0, objectsList := [], queue := [], idLookupFailed := false }

/-- The serializer's `Throw` (the base class only records the sticky
message). -/
def SerState.sthrow (st : SerState) (message : String) : SerState :=
  if st.errorMessage.isSome then st else { st with errorMessage := some message }

namespace Serializer

/-- `WebSnapshotSerializer::SerializeString`: intern by identity in
`string_ids_` and append the length-prefixed record to
`string_serializer_` on first use. -/
def SerializeString (h : EncHeap) (st : SerState) (heapStrId : Nat) :
    Nat × SerState :=
  match st.stringIds.findIdx? (· == heapStrId) with
  | some id => (id, st)
  | none =>
    (st.stringIds.length,
      { st with stringIds := st.stringIds ++ [heapStrId],
                stringSer := st.stringSer ++
                  writeStringRecord (h.strings.getD heapStrId []) })

/-- `WebSnapshotSerializer::GetObjectId` (the C++ `DCHECK`s the lookup
succeeds; a missing id is flagged). -/
def GetObjectId (st : SerState) (heapObjId : Nat) : Nat × SerState :=
  match st.objectIds.findIdx? (· == heapObjId) with
  | some id => (id, st)
  | none => (0, { st with idLookupFailed := true })

/-- `WebSnapshotSerializer::WriteValue` over the modeled fragment:
returns the value's wire bytes (the caller appends them to its table's
buffer) and the updated interning state. -/
def WriteValue (h : EncHeap) (st : SerState) (v : EncVal) : List Nat × SerState :=
  match v with
  | .smi n => (writeUint32Bytes (ValueType.tag .INTEGER) ++ writeZigZagBytes n, st)
  | .heapStr i =>
    let (id, st1) := SerializeString h st i
    (writeUint32Bytes (ValueType.tag .STRING_ID) ++ writeUint32Bytes id, st1)
  | .heapObj i =>
    let (id, st1) := GetObjectId st i
    (writeUint32Bytes (ValueType.tag .OBJECT_ID) ++ writeUint32Bytes id, st1)

/-- The descriptor loop of `SerializeMap`: collect `first_custom_index`,
the custom attribute words, and the interned key string ids. -/
def serializeMapProps (h : EncHeap) :
    List (Nat × Bool × Bool × Bool) → Nat → Option Nat → List Nat → List Nat →
    SerState → Option Nat × List Nat × List Nat × SerState
  | [], _, firstCustom, attrs, stringIds, st => (firstCustom, attrs, stringIds, st)
  | (key, readOnly, configurable, dontEnum) :: rest, i, firstCustom, attrs,
      stringIds, st =>
    let isCustom := firstCustom.isSome || readOnly || !configurable || dontEnum
    let firstCustom2 := if isCustom && firstCustom.isNone then some i else firstCustom
    let attrs2 := if isCustom then
        attrs ++ [AttributesToFlags readOnly configurable (!dontEnum)]
      else attrs
    let (sid, st1) := SerializeString h st key
    serializeMapProps h rest (i + 1) firstCustom2 attrs2 (stringIds ++ [sid]) st1

/-- The per-property write phase of `SerializeMap`: custom shapes write
the attribute word (default flags before `first_custom_index`) before
each key string id. -/
def writeMapPropRecords (firstCustom : Option Nat) (attrs : List Nat) :
    List Nat → Nat → List Nat
  | [], _ => []
  | sid :: rest, i =>
    (match firstCustom with
     | none => []
     | some fc =>
       if i < fc then writeUint32Bytes GetDefaultAttributeFlags
       else writeUint32Bytes (attrs.getD (i - fc) 0)) ++
    writeUint32Bytes sid ++ writeMapPropRecords firstCustom attrs rest (i + 1)

/-- `WebSnapshotSerializer::SerializeMap`: intern by identity in
`map_ids_`; on first use serialize the key strings, then append the
shape record (attribute mode, prototype, property count, properties) to
`map_serializer_`. -/
def SerializeMap (h : EncHeap) (st : SerState) (heapMapId : Nat) :
    Nat × SerState :=
  match st.mapIds.findIdx? (· == heapMapId) with
  | some id => (id, st)
  | none =>
    let id := st.mapIds.length
    let st1 := { st with mapIds := st.mapIds ++ [heapMapId] }
    let m := h.heapMaps.getD heapMapId ⟨[], [], true, 0⟩
    let props := m.keys.zip (m.attrs ++ List.replicate m.keys.length
      (false, true, false)) |>.map (fun p => (p.1, p.2.1, p.2.2.1, p.2.2.2))
    let (firstCustom, attrs, sids, st2) := serializeMapProps h props 0 none [] [] st1
    let (protoBytes, st3) :=
      if m.protoDefault then (writeUint32Bytes 0, st2)
      else
        let (pid, st3) := GetObjectId st2 m.protoObj
        (writeUint32Bytes (pid + 1), st3)
    let record :=
      writeUint32Bytes (if firstCustom.isNone then 0 else 1) ++
      protoBytes ++
      writeUint32Bytes sids.length ++
      writeMapPropRecords firstCustom attrs sids 0
    (id, { st3 with mapSer := st3.mapSer ++ record })

/-- The property loop of `SerializeObject`. -/
def writeObjectProps (h : EncHeap) : List EncVal → SerState → SerState
  | [], st => st
  | v :: rest, st =>
    let (bytes, st1) := WriteValue h st v
    writeObjectProps h rest { st1 with objectSer := st1.objectSer ++ bytes }

/-- `WebSnapshotSerializer::SerializeObject`: serialize the map, write
the map id, then each property value, into `object_serializer_`. -/
def SerializeObject (h : EncHeap) (st : SerState) (heapObjId : Nat) : SerState :=
  let o := h.heapObjs.getD heapObjId ⟨0, []⟩
  let (mapId, st1) := SerializeMap h st o.mapId
  let st2 := { st1 with objectSer := st1.objectSer ++ writeUint32Bytes mapId }
  writeObjectProps h o.fields st2

/-- `WebSnapshotSerializer::DiscoverObject`: intern into `object_ids_`
and `objects_`; on first discovery enqueue the prototype (when not the
default) and the property values. -/
def DiscoverObject (h : EncHeap) (st : SerState) (heapObjId : Nat) : SerState :=
  match st.objectIds.findIdx? (· == heapObjId) with
  | some _ => st
  | none =>
    let st1 := { st with objectIds := st.objectIds ++ [heapObjId],
                         objectsList := st.objectsList ++ [heapObjId] }
    let o := h.heapObjs.getD heapObjId ⟨0, []⟩
    let m := h.heapMaps.getD o.mapId ⟨[], [], true, 0⟩
    let protoPush := if m.protoDefault then [] else [EncVal.heapObj m.protoObj]
    { st1 with queue := st1.queue ++ protoPush ++ o.fields }

/-- A bound on how many queue entries a `Discovery` run can ever pop:
one root plus, per object, one discovery producing at most
1 + its field count entries. -/
def discoveryFuel (h : EncHeap) : Nat :=
  1 + h.heapObjs.foldl (fun a o => a + 1 + o.fields.length) 0

/-- The drain loop of `WebSnapshotSerializer::Discovery`: process the
queue front (strings and Smis carry no references; objects are
discovered), then pop. -/
def discoveryDrain (h : EncHeap) : Nat → SerState → SerState
  | 0, st => st
  | fuel + 1, st =>
    match st.queue with
    | [] => st
    | v :: rest =>
      let st1 := { st with queue := rest }
      match v with
      | .heapObj i => discoveryDrain h fuel (DiscoverObject h st1 i)
      | .heapStr _ => discoveryDrain h fuel st1
      | .smi _ => discoveryDrain h fuel st1

/-- `WebSnapshotSerializer::Discovery` from one export object.  A
primitive wrapper is `JS_PRIMITIVE_WRAPPER_TYPE` in the discovery
switch: it carries no references and receives no id, so the queue run
is a no-op for it. -/
def Discovery (h : EncHeap) (st : SerState) (obj : EncExportObj) : SerState :=
  match obj with
  | .primitiveWrapper _ => st
  | .plainObj i =>
    discoveryDrain h (discoveryFuel h) { st with queue := st.queue ++ [EncVal.heapObj i] }

/-- `WebSnapshotSerializer::SerializeExport`: count the export, write
the interned name id and then the export value (a primitive wrapper is
unwrapped) into `export_serializer_`. -/
def SerializeExport (h : EncHeap) (st : SerState) (obj : EncExportObj)
    (nameHeapStrId : Nat) : SerState :=
  let st0 := { st with exportCount := st.exportCount + 1 }
  let (sid, st1) := SerializeString h st0 nameHeapStrId
  let st2 := { st1 with exportSer := st1.exportSer ++ writeUint32Bytes sid }
  match obj with
  | .primitiveWrapper v =>
    let (bytes, st3) := WriteValue h st2 v
    { st3 with exportSer := st3.exportSer ++ bytes }
  | .plainObj i =>
    let (bytes, st3) := WriteValue h st2 (.heapObj i)
    { st3 with exportSer := st3.exportSer ++ bytes }

/-- The `objects_` loop of `SerializePendingItems` (the context,
function, class and array lists stay empty over the modeled
fragment). -/
def serializeObjectsList (h : EncHeap) : List Nat → SerState → SerState
  | [], st => st
  | i :: rest, st => serializeObjectsList h rest (SerializeObject h st i)

/-- `WebSnapshotSerializer::SerializePendingItems`. -/
def SerializePendingItems (h : EncHeap) (st : SerState) : SerState :=
  serializeObjectsList h st.objectsList st

/-- `WebSnapshotSerializer::WriteSnapshot`: serialize the pending
items, then assemble magic number and the eight tables, each prefixed
with its count, in the fixed wire order. -/
def WriteSnapshot (h : EncHeap) (st : SerState) : List Nat × SerState :=
  let st1 := SerializePendingItems h st
  (kMagicNumber ++
    writeUint32Bytes st1.stringIds.length ++ st1.stringSer ++
    writeUint32Bytes st1.mapIds.length ++ st1.mapSer ++
    writeUint32Bytes st1.contextIds.length ++ st1.contextSer ++
    writeUint32Bytes st1.functionIds.length ++ st1.functionSer ++
    writeUint32Bytes st1.arrayIds.length ++ st1.arraySer ++
    writeUint32Bytes st1.objectIds.length ++ st1.objectSer ++
    writeUint32Bytes st1.classIds.length ++ st1.classSer ++
    writeUint32Bytes st1.exportCount ++ st1.exportSer, st1)

/-- The discovery loop of `TakeSnapshot` over the export list. -/
def discoverExports (h : EncHeap) : List EncExport → SerState → SerState
  | [], st => st
  | e :: rest, st => discoverExports h rest (Discovery h st e.obj)

/-- The export-serialization loop of `TakeSnapshot`. -/
def serializeExports (h : EncHeap) : List EncExport → SerState → SerState
  | [], st => st
  | e :: rest, st =>
    serializeExports h rest (SerializeExport h st e.obj e.nameHeapStrId)

/-- `WebSnapshotSerializer::TakeSnapshot`: reject reuse when
`string_ids_` is non-empty; otherwise reset the pending-item lists,
discover every export, compact the source (no source intervals exist
over the modeled function-free fragment, so `SerializeSource` returns
at once), serialize the exports, and assemble the snapshot.  Returns
`none` on failure. -/
def TakeSnapshot (h : EncHeap) (st : SerState) (exports : List EncExport) :
    Option (List Nat) × SerState :=
  if st.stringIds.length > 0 then
    (none, st.sthrow "Can't reuse WebSnapshotSerializer")
  else
    let st1 := { st with objectsList := [], queue := [] }
    let st2 := discoverExports h exports st1
    let st3 := serializeExports h exports st2
    let (buffer, st4) := WriteSnapshot h st3
    if st4.errorMessage.isSome then (none, st4) else (some buffer, st4)

end Serializer

/-! ### Single-use lemmas (C10) -/

theorem auxGetObjectIdStringIds (st : SerState) (i : Nat) :
    ((Serializer.GetObjectId st i).2).stringIds = st.stringIds := by
  unfold Serializer.GetObjectId
  split <;> rfl

theorem auxStringIdsPosSerializeString (h : EncHeap) (st : SerState) (k : Nat) :
    0 < ((Serializer.SerializeString h st k).2).stringIds.length := by
  unfold Serializer.SerializeString
  match hf : st.stringIds.findIdx? (· == k) with
  | some id =>
    have hne : st.stringIds ≠ [] := by
      intro hnil; rw [hnil] at hf; cases hf
    exact List.length_pos.mpr hne
  | none =>
    dsimp only
    simp

theorem auxMonoSerializeString (h : EncHeap) (st : SerState) (k : Nat) :
    st.stringIds.length ≤ ((Serializer.SerializeString h st k).2).stringIds.length := by
  unfold Serializer.SerializeString
  match hf : st.stringIds.findIdx? (· == k) with
  | some id => exact Nat.le.refl
  | none => simp

theorem auxMonoWriteValue (h : EncHeap) (st : SerState) (v : EncVal) :
    st.stringIds.length ≤ ((Serializer.WriteValue h st v).2).stringIds.length := by
  unfold Serializer.WriteValue
  match v with
  | .smi n => exact Nat.le.refl
  | .heapStr i =>
    dsimp only
    exact auxMonoSerializeString h st i
  | .heapObj i =>
    dsimp only
    rw [show ((Serializer.GetObjectId st i).2).stringIds = st.stringIds from
      auxGetObjectIdStringIds st i]

theorem auxMonoSerializeMapProps (h : EncHeap) (props : List (Nat × Bool × Bool × Bool)) :
    ∀ (i : Nat) (fc : Option Nat) (attrs sids : List Nat) (st : SerState),
      st.stringIds.length ≤
        ((Serializer.serializeMapProps h props i fc attrs sids st).2.2.2).stringIds.length := by
  induction props with
  | nil => intro i fc attrs sids st; exact Nat.le.refl
  | cons p rest ih =>
    intro i fc attrs sids st
    obtain ⟨key, readOnly, configurable, dontEnum⟩ := p
    unfold Serializer.serializeMapProps
    dsimp only
    exact Nat.le_trans (auxMonoSerializeString h st key) (ih _ _ _ _ _)

theorem auxMonoSerializeMap (h : EncHeap) (st : SerState) (k : Nat) :
    st.stringIds.length ≤ ((Serializer.SerializeMap h st k).2).stringIds.length := by
  unfold Serializer.SerializeMap
  match hf : st.mapIds.findIdx? (· == k) with
  | some id => exact Nat.le.refl
  | none =>
    dsimp only
    refine Nat.le_trans (auxMonoSerializeMapProps h
      (List.map (fun p => (p.1, p.2.1, p.2.2.1, p.2.2.2))
        ((h.heapMaps.getD k ⟨[], [], true, 0⟩).keys.zip
          ((h.heapMaps.getD k ⟨[], [], true, 0⟩).attrs ++
            List.replicate (h.heapMaps.getD k ⟨[], [], true, 0⟩).keys.length
              (false, true, false))))
      0 none [] [] { st with mapIds := st.mapIds ++ [k] }) ?_
    split
    · exact Nat.le.refl
    · rw [show ∀ st2 i, ((Serializer.GetObjectId st2 i).2).stringIds = st2.stringIds from
        fun st2 i => auxGetObjectIdStringIds st2 i]

theorem auxMonoWriteObjectProps (h : EncHeap) (fields : List EncVal) :
    ∀ st : SerState, st.stringIds.length ≤
      ((Serializer.writeObjectProps h fields st)).stringIds.length := by
  induction fields with
  | nil => intro st; exact Nat.le.refl
  | cons v rest ih =>
    intro st
    unfold Serializer.writeObjectProps
    dsimp only
    exact Nat.le_trans (auxMonoWriteValue h st v)
      (ih { (Serializer.WriteValue h st v).2 with
            objectSer := (Serializer.WriteValue h st v).2.objectSer ++
              (Serializer.WriteValue h st v).1 })

theorem auxMonoSerializeObject (h : EncHeap) (st : SerState) (k : Nat) :
    st.stringIds.length ≤ ((Serializer.SerializeObject h st k)).stringIds.length := by
  unfold Serializer.SerializeObject
  dsimp only
  exact Nat.le_trans
    (auxMonoSerializeMap h st (h.heapObjs.getD k ⟨0, []⟩).mapId)
    (auxMonoWriteObjectProps h (h.heapObjs.getD k ⟨0, []⟩).fields
      { (Serializer.SerializeMap h st (h.heapObjs.getD k ⟨0, []⟩).mapId).2 with
        objectSer := (Serializer.SerializeMap h st
            (h.heapObjs.getD k ⟨0, []⟩).mapId).2.objectSer ++
          writeUint32Bytes (Serializer.SerializeMap h st
            (h.heapObjs.getD k ⟨0, []⟩).mapId).1 })

theorem auxMonoSerializeObjectsList (h : EncHeap) (l : List Nat) :
    ∀ st : SerState, st.stringIds.length ≤
      ((Serializer.serializeObjectsList h l st)).stringIds.length := by
  induction l with
  | nil => intro st; exact Nat.le.refl
  | cons k rest ih =>
    intro st
    unfold Serializer.serializeObjectsList
    exact Nat.le_trans (auxMonoSerializeObject h st k) (ih _)

theorem auxMonoWriteSnapshot (h : EncHeap) (st : SerState) :
    st.stringIds.length ≤ ((Serializer.WriteSnapshot h st).2).stringIds.length := by
  unfold Serializer.WriteSnapshot Serializer.SerializePendingItems
  dsimp only
  exact auxMonoSerializeObjectsList h st.objectsList st

theorem auxMonoSerializeExport (h : EncHeap) (st : SerState) (obj : EncExportObj)
    (nm : Nat) :
    0 < ((Serializer.SerializeExport h st obj nm)).stringIds.length := by
  unfold Serializer.SerializeExport
  dsimp only
  have hpos := auxStringIdsPosSerializeString h
    { st with exportCount := st.exportCount + 1 } nm
  match obj with
  | .primitiveWrapper v =>
    dsimp only
    refine Nat.lt_of_lt_of_le hpos ?_
    exact auxMonoWriteValue h
      { (Serializer.SerializeString h
            { st with exportCount := st.exportCount + 1 } nm).2 with
        exportSer := (Serializer.SerializeString h
            { st with exportCount := st.exportCount + 1 } nm).2.exportSer ++
          writeUint32Bytes (Serializer.SerializeString h
            { st with exportCount := st.exportCount + 1 } nm).1 } v
  | .plainObj i =>
    dsimp only
    refine Nat.lt_of_lt_of_le hpos ?_
    exact auxMonoWriteValue h
      { (Serializer.SerializeString h
            { st with exportCount := st.exportCount + 1 } nm).2 with
        exportSer := (Serializer.SerializeString h
            { st with exportCount := st.exportCount + 1 } nm).2.exportSer ++
          writeUint32Bytes (Serializer.SerializeString h
            { st with exportCount := st.exportCount + 1 } nm).1 } (.heapObj i)

theorem auxMonoSerializeExports (h : EncHeap) (l : List EncExport) :
    ∀ st : SerState, st.stringIds.length ≤
      ((Serializer.serializeExports h l st)).stringIds.length := by
  induction l with
  | nil => intro st; exact Nat.le.refl
  | cons e rest ih =>
    intro st
    unfold Serializer.serializeExports
    refine Nat.le_trans ?_ (ih _)
    unfold Serializer.SerializeExport
    dsimp only
    have hm1 := auxMonoSerializeString h
      { st with exportCount := st.exportCount + 1 } e.nameHeapStrId
    match e.obj with
    | .primitiveWrapper v =>
      dsimp only
      exact Nat.le_trans hm1 (auxMonoWriteValue h
        { (Serializer.SerializeString h
              { st with exportCount := st.exportCount + 1 } e.nameHeapStrId).2 with
          exportSer := (Serializer.SerializeString h
              { st with exportCount := st.exportCount + 1 } e.nameHeapStrId).2.exportSer ++
            writeUint32Bytes (Serializer.SerializeString h
              { st with exportCount := st.exportCount + 1 } e.nameHeapStrId).1 } v)
    | .plainObj i =>
      dsimp only
      exact Nat.le_trans hm1 (auxMonoWriteValue h
        { (Serializer.SerializeString h
              { st with exportCount := st.exportCount + 1 } e.nameHeapStrId).2 with
          exportSer := (Serializer.SerializeString h
              { st with exportCount := st.exportCount + 1 } e.nameHeapStrId).2.exportSer ++
            writeUint32Bytes (Serializer.SerializeString h
              { st with exportCount := st.exportCount + 1 } e.nameHeapStrId).1 } (.heapObj i))

theorem auxExportsPosSerializeExports (h : EncHeap) (e : EncExport)
    (rest : List EncExport) (st : SerState) :
    0 < ((Serializer.serializeExports h (e :: rest) st)).stringIds.length := by
  unfold Serializer.serializeExports
  exact Nat.lt_of_lt_of_le (auxMonoSerializeExport h st e.obj e.nameHeapStrId)
    (auxMonoSerializeExports h rest _)

theorem auxExportsLoopKeepsFlag (n : Nat) :
    ∀ (dict : List (Str × Val)) (s : DS),
      (deserializeExportsLoop n dict s).deserialized = s.deserialized := by
  induction n with
  | zero => intro dict s; rfl
  | succ n ih =>
    intro dict s
    unfold deserializeExportsLoop
    dsimp only
    have h1 := (auxFrameReadString s true).2.2.2
    have h2 := (auxFrameReadValue (s.readString true).2 ContainerRef.nullRef 0).2.2.2
    split
    · show (((s.readString true).2).readValue ContainerRef.nullRef 0).2.deserialized = _
      rw [h2, h1]
    · rw [ih]
      show (((s.readString true).2).readValue ContainerRef.nullRef 0).2.deserialized = _
      rw [h2, h1]

theorem auxDeserializeExportsKeepsFlag (s : DS) :
    (deserializeExports s).deserialized = s.deserialized := by
  unfold deserializeExports
  match hu : readUint32 s with
  | none => exact (auxFrameThrow s _).2.2.2
  | some (count, s1) =>
    have hf := auxFrameReadUint32 s count s1 hu
    dsimp only
    split
    · rw [(auxFrameThrow s1 _).2.2.2, hf.2.2.2]
    · rw [auxExportsLoopKeepsFlag]
      exact hf.2.2.2

theorem auxDeserializeSetsFlag (s : DS) : (Deserialize s).2.deserialized = true := by
  unfold Deserialize
  split
  · rename_i htrue
    dsimp only
    rw [(auxFrameThrow s _).2.2.2]
    simpa using htrue
  · dsimp only
    unfold deserializeSnapshot
    set s0 : DS := { s with deserialized := true, deferredReferences := [] } with hs0
    have h0 : s0.deserialized = true := rfl
    rcases hb : readRawBytes s0 4 with _ | ⟨magicBytes, sa⟩
    · dsimp only
      rw [hb]
      dsimp only
      rw [(auxFrameThrow s0 _).2.2.2]
    · have hfa : Frame s0 sa := auxFrameReadRawBytes s0 4 magicBytes sa hb
      dsimp only
      rw [hb]
      dsimp only
      split
      · rw [(auxFrameThrow sa _).2.2.2, hfa.2.2.2]
      · have hfr : Frame sa (processDeferredReferences (deserializeClasses
            (deserializeObjects (deserializeArrays (deserializeFunctions
            (deserializeContexts (deserializeMaps (deserializeStrings sa)))))))) :=
          auxFrameStages sa
        set s9 : DS := processDeferredReferences (deserializeClasses
          (deserializeObjects (deserializeArrays (deserializeFunctions
          (deserializeContexts (deserializeMaps (deserializeStrings sa))))))) with hs9
        show (deserializeExports s9).deserialized = true
        rw [auxDeserializeExportsKeepsFlag, hfr.2.2.2, hfa.2.2.2]

/-- The empty model heap. -/
def emptyHeap : EncHeap := ⟨[], [], []⟩

/-- C10 counterexample: `TakeSnapshot` detects reuse by
`string_ids_.size() > 0`, and a first call with an EMPTY export list
interns no string, so a second call on the same serializer instance is
not rejected: both calls return a snapshot buffer and no error is ever
recorded.  This refutes "a second call to TakeSnapshot on the same
instance (including a first call whose export list was empty) fails
with a reuse error". -/
theorem c10_empty_export_reuse_counterexample :
    (Serializer.TakeSnapshot emptyHeap
      (Serializer.TakeSnapshot emptyHeap SerState.init []).2 []).1.isSome = true ∧
    (Serializer.TakeSnapshot emptyHeap
      (Serializer.TakeSnapshot emptyHeap SerState.init []).2 []).2.errorMessage
      = none := by
  decide

/-- C10 (amended): `TakeSnapshot` fails with the reuse error and
performs no further serialization work exactly when `string_ids_` is
non-empty, which holds after every first call whose export list was
non-empty (each export interns its name string) — but not after a first
call with an empty export list.  Every call to `Deserialize` leaves the
instance marked `deserialized_`, and a call on a marked instance fails
with the reuse error and performs no further decoding work. -/
theorem c10_single_use_instances :
    (∀ (h : EncHeap) (st : SerState) (exports : List EncExport),
      0 < st.stringIds.length →
      Serializer.TakeSnapshot h st exports =
        (none, st.sthrow "Can't reuse WebSnapshotSerializer")) ∧
    (∀ (h : EncHeap) (st : SerState) (e : EncExport) (rest : List EncExport),
      0 < (Serializer.TakeSnapshot h st (e :: rest)).2.stringIds.length) ∧
    (∀ s : DS, (Deserialize s).2.deserialized = true) ∧
    (∀ s : DS, s.deserialized = true →
      Deserialize s = (false, s.throw "Can't reuse WebSnapshotDeserializer")) := by
  refine ⟨?_, ?_, auxDeserializeSetsFlag, ?_⟩
  · intro h st exports hpos
    unfold Serializer.TakeSnapshot
    rw [if_pos (by omega)]
  · intro h st e rest
    unfold Serializer.TakeSnapshot
    split
    · rename_i hpos
      show 0 < (st.sthrow "Can't reuse WebSnapshotSerializer").stringIds.length
      unfold SerState.sthrow
      split
      · omega
      · show 0 < st.stringIds.length
        omega
    · dsimp only
      have hpos := auxExportsPosSerializeExports h e rest
        (Serializer.discoverExports h (e :: rest)
          { st with objectsList := [], queue := [] })
      have hmono := auxMonoWriteSnapshot h
        (Serializer.serializeExports h (e :: rest)
          (Serializer.discoverExports h (e :: rest)
            { st with objectsList := [], queue := [] }))
      split
      · exact Nat.lt_of_lt_of_le hpos hmono
      · exact Nat.lt_of_lt_of_le hpos hmono
  · intro s hflag
    unfold Deserialize
    rw [if_pos hflag]

/-- Witness for `c10_single_use_instances`: a serializer state that has
interned one string is rejected on the next call, and a deserializer
instance that has run once is rejected on its next call. -/
theorem c10_single_use_instances_witness :
    Serializer.TakeSnapshot emptyHeap { SerState.init with stringIds := [0] } [] =
      (none, ({ SerState.init with stringIds := [0] }).sthrow
        "Can't reuse WebSnapshotSerializer") ∧
    Deserialize { DS.init [] [] with deserialized := true } =
      (false, ({ DS.init [] [] with deserialized := true }).throw
        "Can't reuse WebSnapshotDeserializer") :=
  ⟨c10_single_use_instances.1 emptyHeap { SerState.init with stringIds := [0] } []
      (by decide),
   c10_single_use_instances.2.2.2 { DS.init [] [] with deserialized := true } rfl⟩

/-! ### The C8 fixture: exports a = 1, b = { x: "hello" } -/

/-- The model heap of the C8 fixture: strings "a", "b", "x", "hello";
one shape with the single key "x" (default attributes, default
prototype); one object of that shape whose property is "hello". -/
def c8Heap : EncHeap :=
  { strings := [[97], [98], [120], [104, 101, 108, 108, 111]],
    heapMaps := [{ keys := [2], attrs := [(false, true, false)],
                   protoDefault := true, protoObj := 0 }],
    heapObjs := [{ mapId := 0, fields := [.heapStr 3] }] }

/-- The C8 export list: "a" bound to the Smi 1 (a primitive wrapper in
discovery), "b" bound to the heap object. -/
def c8Exports : List EncExport :=
  [⟨0, .primitiveWrapper (.smi 1)⟩, ⟨1, .plainObj 0⟩]

/-- The snapshot the serializer produces for the C8 fixture. -/
def c8SnapshotBytes : List Nat :=
  ((Serializer.TakeSnapshot c8Heap SerState.init c8Exports).1).getD []

/-- C8 counterexample: serializing the exports a = 1,
b = { x: "hello" } succeeds, but the snapshot's header declares
string_count = 4, not 2: `SerializeExport` interns each export NAME
("a", "b") into the same string table before `SerializePendingItems`
interns "x" and "hello".  This refutes the claimed `string_count=2`. -/
theorem c8_string_count_counterexample :
    (Serializer.TakeSnapshot c8Heap SerState.init c8Exports).1.isSome = true ∧
    (Deserialize (DS.init [] c8SnapshotBytes)).2.errorMessage = none ∧
    (Deserialize (DS.init [] c8SnapshotBytes)).2.stringCount = 4 := by
  decide

/-- C8 (amended): encoding the two exports a = 1, b = { x: "hello" }
produces a snapshot whose header declares string_count = 4 (export
names "a", "b" are interned too), object_count = 1 and shape_count = 1,
and decoding that buffer consumes it fully and yields a namespace in
which a is the Integer 1 and b is the object of the one shape keyed
"x" whose sole property is the String "hello". -/
theorem c8_fixture_roundtrip :
    (Serializer.TakeSnapshot c8Heap SerState.init c8Exports).1
      = some c8SnapshotBytes ∧
    (Serializer.TakeSnapshot c8Heap SerState.init c8Exports).2.errorMessage
      = none ∧
    (Deserialize (DS.init [] c8SnapshotBytes)).1 = true ∧
    (Deserialize (DS.init [] c8SnapshotBytes)).2.errorMessage = none ∧
    (Deserialize (DS.init [] c8SnapshotBytes)).2.stringCount = 4 ∧
    (Deserialize (DS.init [] c8SnapshotBytes)).2.mapCount = 1 ∧
    (Deserialize (DS.init [] c8SnapshotBytes)).2.objectCount = 1 ∧
    (Deserialize (DS.init [] c8SnapshotBytes)).2.global
      = [([97], Val.int 1), ([98], Val.objRef 0)] ∧
    (Deserialize (DS.init [] c8SnapshotBytes)).2.objects.getD 0 none
      = some { mapId := 0, properties := [Val.str [104, 101, 108, 108, 111]] } ∧
    ((Deserialize (DS.init [] c8SnapshotBytes)).2.maps.getD 0 none).map
        (fun m => (m.keys, m.protoDefault))
      = some ([[120]], true) ∧
    (Deserialize (DS.init [] c8SnapshotBytes)).2.pos = c8SnapshotBytes.length := by
  decide

/-! ### C7 context-parent machinery -/

/-- Every stored context's parent index is strictly below its own
table index. -/
def CtxParentsBelow (l : List (Option CtxV)) : Prop :=
  ∀ (i p : Nat) (c : CtxV),
    l.getD i none = some c → c.parent = some p → p < i

theorem auxCPBReplicate (n : Nat) : CtxParentsBelow (List.replicate n none) := by
  intro i p c hget
  rcases Nat.lt_or_ge i n with hlt | hge
  · rw [List.getD_eq_getElem?_getD, List.getElem?_replicate, if_pos hlt] at hget
    cases hget
  · rw [List.getD_eq_getElem?_getD, List.getElem?_replicate, if_neg (by omega)] at hget
    cases hget

theorem auxCPBSet (l : List (Option CtxV)) (i : Nat) (c : CtxV)
    (hl : CtxParentsBelow l) (hc : ∀ p, c.parent = some p → p < i) :
    CtxParentsBelow (l.set i (some c)) := by
  intro j p d hget hp
  by_cases hij : i = j
  · subst hij
    rcases Nat.lt_or_ge i l.length with hlt | hge
    · rw [List.getD_eq_getElem?_getD, List.getElem?_set_self (by omega)] at hget
      cases hget
      exact hc p hp
    · rw [List.set_eq_of_length_le (by omega)] at hget
      exact hl i p d hget hp
  · rw [List.getD_eq_getElem?_getD, List.getElem?_set_ne hij] at hget
    exact hl j p d (by rw [List.getD_eq_getElem?_getD]; exact hget) hp

theorem auxCtxEqThrow (s : DS) (m : String) : (s.throw m).contexts = s.contexts := by
  unfold DS.throw
  split <;> rfl

theorem auxCtxEqReadUint32 (s : DS) (n : Nat) (s1 : DS)
    (h : readUint32 s = some (n, s1)) : s1.contexts = s.contexts := by
  unfold readUint32 at h
  split at h
  · cases h; rfl
  · cases h

theorem auxCtxEqGetString (s : DS) (i : Nat) :
    ((s.getString i).2).contexts = s.contexts := by
  unfold DS.getString
  split <;> rfl

theorem auxCtxEqGetContext (s : DS) (i : Nat) :
    ((s.getContext i).2).contexts = s.contexts := by
  unfold DS.getContext
  split <;> rfl

theorem auxCtxEqGetArray (s : DS) (i : Nat) :
    ((s.getArray i).2).contexts = s.contexts := by
  unfold DS.getArray
  split <;> rfl

theorem auxCtxEqGetObject (s : DS) (i : Nat) :
    ((s.getObject i).2).contexts = s.contexts := by
  unfold DS.getObject
  split <;> rfl

theorem auxCtxEqGetFunction (s : DS) (i : Nat) :
    ((s.getFunction i).2).contexts = s.contexts := by
  unfold DS.getFunction
  split <;> rfl

theorem auxCtxEqGetClass (s : DS) (i : Nat) :
    ((s.getClass i).2).contexts = s.contexts := by
  unfold DS.getClass
  split <;> rfl

theorem auxCtxEqReadString (s : DS) (b : Bool) :
    ((s.readString b).2).contexts = s.contexts := by
  unfold DS.readString
  match hu : readUint32 s with
  | none => exact auxCtxEqThrow s _
  | some (stringId, s1) =>
    have h1 := auxCtxEqReadUint32 s stringId s1 hu
    dsimp only
    split
    · rw [auxCtxEqThrow, h1]
    · rw [auxCtxEqGetString, h1]

theorem auxCtxEqAddDeferred (s : DS) (c : ContainerRef) (i : Nat)
    (tt : ValueType) (ti : Nat) :
    ((s.addDeferredReference c i tt ti).2).contexts = s.contexts := by
  unfold DS.addDeferredReference
  match c with
  | .nullRef => exact auxCtxEqThrow s _
  | .mapC k => rfl
  | .objectC k => rfl
  | .contextC k => rfl
  | .arrayC k => rfl
  | .functionC k => rfl
  | .classC k => rfl

theorem auxCtxEqReadVarint (fuel : Nat) :
    ∀ (shift acc : Nat) (s : DS) (z : Nat) (s2 : DS),
      readVarintAux fuel shift acc s = some (z, s2) → s2.contexts = s.contexts := by
  induction fuel with
  | zero => intro shift acc s z s2 h; cases h
  | succ n ih =>
    intro shift acc s z s2 hv
    unfold readVarintAux at hv
    match hb : readByte s with
    | none => rw [hb] at hv; cases hv
    | some (b, sb) =>
      rw [hb] at hv
      dsimp only at hv
      have hsb : sb.contexts = s.contexts := by
        unfold readByte at hb
        split at hb
        · cases hb; rfl
        · cases hb
      split at hv
      · cases hv; exact hsb
      · rw [ih _ _ sb z s2 hv, hsb]

theorem auxCtxEqReadZigZag (s : DS) (n : Int) (s1 : DS)
    (h : readZigZag s = some (n, s1)) : s1.contexts = s.contexts := by
  unfold readZigZag at h
  match hv : readVarintAux 5 0 0 s with
  | none => rw [hv] at h; cases h
  | some (z, s2) =>
    rw [hv] at h
    dsimp only at h
    have h2 : s2.contexts = s.contexts := auxCtxEqReadVarint 5 0 0 s z s2 hv
    split at h <;> (cases h; exact h2)

theorem auxCtxEqReadRawBytes (s : DS) (n : Nat) (bs : List Nat) (s1 : DS)
    (h : readRawBytes s n = some (bs, s1)) : s1.contexts = s.contexts := by
  unfold readRawBytes at h
  split at h
  · cases h; rfl
  · cases h

theorem auxCtxEqReadValue (s : DS) (c : ContainerRef) (i : Nat) :
    ((s.readValue c i).2).contexts = s.contexts := by
  unfold DS.readValue
  match hu : readUint32 s with
  | none => exact auxCtxEqThrow s _
  | some (tag, s1) =>
    have h1 := auxCtxEqReadUint32 s tag s1 hu
    dsimp only
    match tag with
    | 0 => exact h1
    | 1 => exact h1
    | 2 => exact h1
    | 3 => exact h1
    | 4 =>
      dsimp only
      match hz : readZigZag s1 with
      | none => rw [auxCtxEqThrow, h1]
      | some (number, s2) =>
        rw [auxCtxEqReadZigZag s1 number s2 hz, h1]
    | 5 =>
      dsimp only
      match hd : readDouble s1 with
      | none => rw [auxCtxEqThrow, h1]
      | some (bytes, s2) =>
        rw [auxCtxEqReadRawBytes s1 8 bytes s2 hd, h1]
    | 6 =>
      dsimp only
      rw [auxCtxEqReadString, h1]
    | 7 =>
      dsimp only
      match hu2 : readUint32 s1 with
      | none => rw [auxCtxEqThrow, h1]
      | some (arrayId, s2) =>
        have h2 := auxCtxEqReadUint32 s1 arrayId s2 hu2
        dsimp only
        split
        · rw [auxCtxEqThrow, h2, h1]
        · split
          · rw [auxCtxEqGetArray, h2, h1]
          · rw [auxCtxEqAddDeferred, h2, h1]
    | 8 =>
      dsimp only
      match hu2 : readUint32 s1 with
      | none => rw [auxCtxEqThrow, h1]
      | some (objectId, s2) =>
        have h2 := auxCtxEqReadUint32 s1 objectId s2 hu2
        dsimp only
        split
        · rw [auxCtxEqThrow, h2, h1]
        · split
          · rw [auxCtxEqGetObject, h2, h1]
          · rw [auxCtxEqAddDeferred, h2, h1]
    | 9 =>
      dsimp only
      match hu2 : readUint32 s1 with
      | none => rw [auxCtxEqThrow, h1]
      | some (functionId, s2) =>
        have h2 := auxCtxEqReadUint32 s1 functionId s2 hu2
        dsimp only
        split
        · rw [auxCtxEqThrow, h2, h1]
        · split
          · rw [auxCtxEqGetFunction, h2, h1]
          · rw [auxCtxEqAddDeferred, h2, h1]
    | 10 =>
      dsimp only
      match hu2 : readUint32 s1 with
      | none => rw [auxCtxEqThrow, h1]
      | some (classId, s2) =>
        have h2 := auxCtxEqReadUint32 s1 classId s2 hu2
        dsimp only
        split
        · rw [auxCtxEqThrow, h2, h1]
        · split
          · rw [auxCtxEqGetClass, h2, h1]
          · rw [auxCtxEqAddDeferred, h2, h1]
    | 11 =>
      dsimp only
      rw [auxCtxEqReadString, auxCtxEqReadString, h1]
    | (n + 12) =>
      exact (auxCtxEqThrow s1 "Unsupported value type").trans h1

theorem auxCtxEqReadContextVarNames (n : Nat) :
    ∀ (acc : List Str) (s : DS),
      ((readContextVarNames n acc s).2).contexts = s.contexts := by
  induction n with
  | zero => intro acc s; rfl
  | succ n ih =>
    intro acc s
    unfold readContextVarNames
    dsimp only
    rw [ih, auxCtxEqReadString]

theorem auxReadContextSlotsCtx (n : Nat) :
    ∀ (k vi : Nat) (ctx : CtxV) (s : DS),
      ((readContextSlots k n vi ctx s).2).contexts = s.contexts ∧
      ((readContextSlots k n vi ctx s).1).parent = ctx.parent := by
  induction n with
  | zero => intro k vi ctx s; exact ⟨rfl, rfl⟩
  | succ n ih =>
    intro k vi ctx s
    unfold readContextSlots
    dsimp only
    obtain ⟨h1, h2⟩ := ih k (vi + 1)
      { ctx with slots := List.set ctx.slots (contextHeaderLength + vi) (s.readValue (.contextC k) (contextHeaderLength + vi)).1 }
      (s.readValue (.contextC k) (contextHeaderLength + vi)).2
    exact ⟨h1.trans (auxCtxEqReadValue s _ _), h2⟩

theorem auxCtxLoopCPB (fuel : Nat) :
    ∀ (i : Nat) (s : DS), CtxParentsBelow s.contexts →
      CtxParentsBelow (deserializeContextsLoop fuel i s).contexts := by
  induction fuel with
  | zero => intro i s h; exact h
  | succ fuel ih =>
    intro i s h
    unfold deserializeContextsLoop
    split
    · match hu : readUint32 s with
      | none => rw [auxCtxEqThrow]; exact h
      | some (contextType, s1) =>
        have he1 := auxCtxEqReadUint32 s contextType s1 hu
        dsimp only
        match hu2 : readUint32 s1 with
        | none => rw [auxCtxEqThrow, he1]; exact h
        | some (parentContextId, s2) =>
          have he2 := auxCtxEqReadUint32 s1 parentContextId s2 hu2
          dsimp only
          split
          · rw [auxCtxEqThrow, he2, he1]; exact h
          · rename_i hple
            match hu3 : readUint32 s2 with
            | none => rw [auxCtxEqThrow, he2, he1]; exact h
            | some (variableCount, s3) =>
              have he3 := auxCtxEqReadUint32 s2 variableCount s3 hu3
              dsimp only
              have hea : (if contextType == 0 || contextType == 1 then s3
                  else s3.throw "Unsupported context type").contexts = s3.contexts := by
                split
                · rfl
                · exact auxCtxEqThrow s3 _
              set s3a := if contextType == 0 || contextType == 1 then s3
                  else s3.throw "Unsupported context type"
              have heb : (if parentContextId > 0 then
                  (s3a.getContext (parentContextId - 1)).2 else s3a).contexts
                  = s3a.contexts := by
                split
                · exact auxCtxEqGetContext s3a _
                · rfl
              set s3b := if parentContextId > 0 then
                  (s3a.getContext (parentContextId - 1)).2 else s3a
              match hn : readContextVarNames variableCount [] s3b with
              | (names, s4) =>
                have he4 : s4.contexts = s3b.contexts := by
                  have := auxCtxEqReadContextVarNames variableCount [] s3b
                  rw [hn] at this
                  exact this
                dsimp only
                split
                · match hs : readContextSlots i variableCount 0
                      { parent := if parentContextId > 0 then
                          some (parentContextId - 1) else none,
                        varNames := names,
                        slots := List.replicate
                          (contextHeaderLength + variableCount) Val.undef } s4 with
                  | (ctx2, s5) =>
                    have hslots := auxReadContextSlotsCtx variableCount i 0
                      { parent := if parentContextId > 0 then
                          some (parentContextId - 1) else none,
                        varNames := names,
                        slots := List.replicate
                          (contextHeaderLength + variableCount) Val.undef } s4
                    rw [hs] at hslots
                    obtain ⟨he5, hpar⟩ := hslots
                    refine ih (i + 1) (s5.setContext i ctx2) ?_
                    show CtxParentsBelow (s5.contexts.set i (some ctx2))
                    have hcpb5 : CtxParentsBelow s5.contexts := by
                      rw [he5, he4, heb, hea, he3, he2, he1]; exact h
                    refine auxCPBSet s5.contexts i ctx2 hcpb5 ?_
                    intro p hp
                    rw [hpar] at hp
                    dsimp only at hp
                    split at hp
                    · rename_i hpos
                      cases hp
                      omega
                    · cases hp
                · rw [auxCtxEqThrow, he4, heb, hea, he3, he2, he1]; exact h
    · exact h

theorem auxDeserializeContextsCPB (s : DS) (h : CtxParentsBelow s.contexts) :
    CtxParentsBelow (deserializeContexts s).contexts := by
  unfold deserializeContexts
  match hu : readUint32 s with
  | none => rw [auxCtxEqThrow]; exact h
  | some (count, s1) =>
    have he1 := auxCtxEqReadUint32 s count s1 hu
    dsimp only
    split
    · rw [auxCtxEqThrow]
      show CtxParentsBelow s1.contexts
      rw [he1]; exact h
    · refine auxCtxLoopCPB count 0 _ ?_
      show CtxParentsBelow (List.replicate count none)
      exact auxCPBReplicate count

theorem auxCtxLoopRejects (fuel i : Nat) (s : DS) (t pid : Nat) (s1 s2 : DS)
    (hlt : i < s.contextCount)
    (h1 : readUint32 s = some (t, s1))
    (h2 : readUint32 s1 = some (pid, s2))
    (hbig : pid > i) :
    deserializeContextsLoop (fuel + 1) i s = s2.throw "Malformed context" := by
  unfold deserializeContextsLoop
  rw [if_pos hlt, h1]
  dsimp only
  rw [h2]
  dsimp only
  rw [if_pos hbig]

/-- A deserializer state whose context table declares one context and
whose next bytes encode context type 0 with out-of-order parent id 1. -/
def c7RejectState : DS :=
  { DS.init [] [0, 0, 0, 0, 1, 0, 0, 0, 0, 0, 0, 0] with
    contextCount := 1 }

/-- C7: during encoding, `DiscoverContext` interns the entire parent
chain before the child, so in the discovered table every context's
parent sits at a strictly smaller ID and the serialized parent field is
that smaller ID plus one; on decode, a context record whose (1-based)
parent field exceeds its own index is rejected as "Malformed context",
and every context stored by the contexts stage has a parent index
strictly below its own table index. -/
theorem c7_context_parent_ordering :
    (∀ (cs : List Ctx) (j : Nat)
        (hj : j < (cs.foldl DiscoverContext []).length) (p : Ctx),
        ((cs.foldl DiscoverContext []).get ⟨j, hj⟩).previous = some p →
        GetContextId (cs.foldl DiscoverContext []) p < j ∧
        SerializedParentId (cs.foldl DiscoverContext [])
            ((cs.foldl DiscoverContext []).get ⟨j, hj⟩)
          = GetContextId (cs.foldl DiscoverContext []) p + 1) ∧
    (∀ (fuel i : Nat) (s : DS) (t pid : Nat) (s1 s2 : DS),
        i < s.contextCount → readUint32 s = some (t, s1) →
        readUint32 s1 = some (pid, s2) → pid > i →
        deserializeContextsLoop (fuel + 1) i s = s2.throw "Malformed context") ∧
    (∀ s : DS, CtxParentsBelow s.contexts →
        CtxParentsBelow (deserializeContexts s).contexts) := by
  refine ⟨?_, auxCtxLoopRejects, auxDeserializeContextsCPB⟩
  intro cs j hj p hp
  have hord := auxFoldDiscoverOrdered cs
  obtain ⟨i, hi, hij, hpi⟩ := hord j hj p hp
  have hle := auxIndexOfLe p _ i hi hpi
  refine ⟨Nat.lt_of_le_of_lt hle hij, ?_⟩
  unfold SerializedParentId
  rw [hp]

/-- Witness for `c7_context_parent_ordering`: a two-context chain on
the encode side, a concrete malformed record on the decode side. -/
theorem c7_context_parent_ordering_witness :
    (GetContextId ([Ctx.child [] (Ctx.root [])].foldl DiscoverContext [])
        (Ctx.root []) < 1 ∧
     SerializedParentId ([Ctx.child [] (Ctx.root [])].foldl DiscoverContext [])
         (([Ctx.child [] (Ctx.root [])].foldl DiscoverContext []).get ⟨1, by decide⟩)
       = GetContextId ([Ctx.child [] (Ctx.root [])].foldl DiscoverContext [])
           (Ctx.root []) + 1) ∧
    deserializeContextsLoop 1 0 c7RejectState
      = ({ c7RejectState with pos := 8 }).throw "Malformed context" ∧
    CtxParentsBelow (deserializeContexts (DS.init [] [])).contexts :=
  ⟨c7_context_parent_ordering.1 [Ctx.child [] (Ctx.root [])] 1 (by decide)
      (Ctx.root []) (by decide),
   c7_context_parent_ordering.2.1 0 0 c7RejectState 0 1
      { c7RejectState with pos := 4 } { c7RejectState with pos := 8 }
      (by decide) rfl rfl (by decide),
   c7_context_parent_ordering.2.2 (DS.init [] [])
      (by intro i p c hget hp
          rw [List.getD_eq_getElem?_getD,
            show (DS.init [] []).contexts = ([] : List (Option CtxV)) from rfl,
            List.getElem?_nil] at hget
          cases hget)⟩

end WebSnapshot
